import Mathlib

set_option maxHeartbeats 1000000
set_option linter.unusedVariables false

/- Verification development for the fs-verify-engine repository.
   Python floats are modelled as rationals, Python dicts keyed by strings as
   association lists kept in insertion order, and Python exceptions as
   Option/Except failures.  Presentation-only artefacts of the source
   (printed warnings, formatted message strings, timestamps) are modelled by
   structured tags instead of interpolated text. -/

namespace FsVerify

/-! ## Label normalisation (src/engine/field_mapper.py, normalize /
    normalize_aggressive) -/

/-- Characters treated as whitespace by Python str.strip and the regex
class used in normalisation. -/
def isPySpace (c : Char) : Bool := c.isWhitespace

/-- Python str.strip on a character list. -/
def trimChars (l : List Char) : List Char :=
  ((l.dropWhile isPySpace).reverse.dropWhile isPySpace).reverse

/-- Worker for parenRemove.  While the first argument is some buf we are
inside a pending open parenthesis whose content (in reverse) is buf; it is
emitted unchanged if the closing parenthesis never arrives, which matches
how the regex fails to match an unclosed group. -/
def parenRemoveGo : Option (List Char) → List Char → List Char
  | none, [] => []
  | some buf, [] => buf.reverse
  | none, c :: rest =>
    if c = '(' then parenRemoveGo (some [c]) rest
    else c :: parenRemoveGo none rest
  | some buf, c :: rest =>
    if c = ')' then parenRemoveGo none rest
    else parenRemoveGo (some (c :: buf)) rest

/-- Embedding of re.sub removing every balanced parenthesised group: each
open parenthesis swallows everything up to the first closing parenthesis
after it. -/
def parenRemove (l : List Char) : List Char := parenRemoveGo none l

/-- Separator characters that normalize rewrites to spaces. -/
def sepToSpace (c : Char) : Char :=
  if c = '_' ∨ c = '-' ∨ c = '.' ∨ c = '/' ∨ c = '\\' then ' ' else c

/-- Characters kept by normalize: lowercase letters, digits, ampersand and
the space. -/
def keepChar (c : Char) : Bool :=
  decide ('a' ≤ c ∧ c ≤ 'z') || decide ('0' ≤ c ∧ c ≤ '9') || decide (c = '&') || decide (c = ' ')

/-- Words of a character list: split on spaces, dropping empty pieces
(after normalisation the only whitespace character left is the space). -/
def splitWords (l : List Char) : List (List Char) :=
  (l.splitOn ' ').filter (fun w => !w.isEmpty)

/-- Collapse runs of spaces and strip, by rejoining the words with single
spaces. -/
def collapseSpaces (l : List Char) : List Char :=
  List.intercalate [' '] (splitWords l)

/-- Embedding of normalize: lowercase, strip, drop parenthesised content,
separators to spaces, keep only [a-z0-9& ], collapse whitespace. -/
def normalize (s : String) : String :=
  ⟨collapseSpaces (((parenRemove (trimChars (s.data.map Char.toLower))).map sepToSpace).filter keepChar)⟩

/-- Filler words removed by the aggressive normalisation. -/
def FILLERS : List String :=
  ["total", "net", "less", "gross", "of", "the", "and", "in", "from", "for", "to", "at", "on"]

/-- Embedding of normalize_aggressive: normalize, then drop filler words. -/
def normalizeAggressive (s : String) : String :=
  ⟨List.intercalate [' ']
    ((splitWords (normalize s).data).filter (fun w => !(FILLERS.contains (String.mk w))))⟩

/-! ## Mapping configuration loader (load_mapping_config) -/

/-- Keep the first occurrence of each string.  CPython's list(set(...))
produces the same *set* in an unspecified order; within a single canonical
field every alias is inserted with the same target, so the reverse index
does not depend on that order and keeping first occurrences is a faithful
choice. -/
def dedupFirst (l : List String) : List String :=
  l.foldl (fun acc x => if x ∈ acc then acc else acc ++ [x]) []

/-- Normalised alias forms declared by one canonical field: its aliases and
the field name itself, deduplicated. -/
def fieldForms (fname : String) (aliases : List String) : List String :=
  dedupFirst (aliases.map normalize ++ [normalize fname])

/-- Insert one normalised alias into the reverse index; on collision the
first mapping wins (the source also prints a warning, a side effect not
modelled). -/
def revInsert (rev : List (String × String)) (k v : String) : List (String × String) :=
  if (List.lookup k rev).isSome then rev else rev ++ [(k, v)]

/-- Reverse index (normalized alias → canonical field) built by
load_mapping_config for one statement type from the raw field definitions
in declaration order. -/
def buildReverse (defs : List (String × List String)) : List (String × String) :=
  defs.foldl (fun rev fd => (fieldForms fd.1 fd.2).foldl (fun r na => revInsert r na fd.1) rev) []

/-! ## Field resolver (FieldMapper.resolve_field) -/

/-- Result of a single field mapping attempt (MappingResult). -/
structure MappingResult where
  input_name : String
  normalized_name : String
  internal_field : Option String
  match_type : String
  confidence : ℚ
  fuzzy_candidates : List (String × ℚ) := []
deriving DecidableEq

/-- Substring containment on character lists (Python's `a in b`). -/
def substrIn (a : List Char) : List Char → Bool
  | [] => a.isEmpty
  | c :: rest => a.isPrefixOf (c :: rest) || substrIn a rest

/-- Fuzzy candidates: every (field, alias, ratio) from the reverse index
whose similarity ratio (scaled to 0..100) reaches the threshold.  The
similarity ratio function (difflib.SequenceMatcher().ratio()) is a
parameter of the embedding. -/
def fuzzyCandList (reverse : List (String × String)) (θ : ℚ)
    (simScore : String → String → ℚ) (norm : String) : List (String × String × ℚ) :=
  reverse.filterMap (fun p =>
    let r := 100 * simScore norm p.1
    if θ ≤ r then some (p.2, p.1, r) else none)

/-- Stable sort of the candidates by ratio descending, as Python's stable
list.sort with a reversed key. -/
def sortCandDesc (l : List (String × String × ℚ)) : List (String × String × ℚ) :=
  List.insertionSort (fun a b => b.2.2 ≤ a.2.2) l

/-- Embedding of FieldMapper.resolve_field: exact → aggressive-exact →
substring → fuzzy, with the ambiguity rule in the fuzzy stage. -/
def resolveField (reverse : List (String × String)) (θ : ℚ)
    (simScore : String → String → ℚ) (input_name : String) : MappingResult :=
  let norm := normalize input_name
  match List.lookup norm reverse with
  | some f => ⟨input_name, norm, some f, "exact", 1, []⟩
  | none =>
    let normAgg := normalizeAggressive input_name
    match List.lookup normAgg reverse with
    | some f => ⟨input_name, norm, some f, "alias", 95/100, []⟩
    | none =>
      match reverse.find? (fun p =>
          decide (3 < p.1.length) && (substrIn p.1.data norm.data || substrIn norm.data p.1.data)) with
      | some p => ⟨input_name, norm, some p.2, "alias", 85/100, []⟩
      | none =>
        if 0 < θ then
          match sortCandDesc (fuzzyCandList reverse θ simScore norm) with
          | [] => ⟨input_name, norm, none, "unmapped", 0, []⟩
          | best :: rest =>
            let fc := ((best :: rest).take 3).map (fun c => (c.2.1, c.2.2))
            let ambiguous : Bool := match rest with
              | [] => false
              | second :: _ => decide (best.1 ≠ second.1) && decide (best.2.2 - second.2.2 < 5)
            if ambiguous then ⟨input_name, norm, none, "unmapped", 0, fc⟩
            else ⟨input_name, norm, some best.1, "fuzzy", best.2.2 / 100, fc⟩
        else ⟨input_name, norm, none, "unmapped", 0, []⟩

/-! ## Batch resolution (FieldMapper.map_fields) -/

/-- Warnings appended by map_fields.  The source interpolates values into
message strings; the embedding keeps the structured content. -/
inductive MapWarning
  | duplicate (input_name internal : String)
  | fuzzyMatch (input_name internal : String)
  | ambiguous (input_name : String)
deriving DecidableEq

/-- Running state of map_fields: the mapping table under construction, the
diagnostics counters and lists, and the set of already-consumed internal
fields.  statement_type and total_input_fields are copied verbatim into
MappingDiagnostics by the source and are not repeated here. -/
structure MapState where
  mapping : List (String × String) := []
  results : List MappingResult := []
  used : List String := []
  mapped_count : Nat := 0
  unmapped_count : Nat := 0
  exact_matches : Nat := 0
  alias_matches : Nat := 0
  fuzzy_matches : Nat := 0
  unmapped_fields : List String := []
  warnings : List MapWarning := []
deriving DecidableEq

/-- One iteration of the map_fields loop.  Python tests the resolved field
with `if result.internal_field:`, which is false both for None and for the
empty string, hence the extra isEmpty test. -/
def mapStep (reverse : List (String × String)) (θ : ℚ)
    (simScore : String → String → ℚ) (s : MapState) (input_name : String) : MapState :=
  if (trimChars input_name.data).isEmpty then s
  else
    let r := resolveField reverse θ simScore input_name
    let s1 := { s with results := s.results ++ [r] }
    match r.internal_field with
    | some f =>
      if f.isEmpty then
        { s1 with unmapped_count := s1.unmapped_count + 1,
                  unmapped_fields := s1.unmapped_fields ++ [input_name],
                  warnings := s1.warnings ++
                    (if r.fuzzy_candidates.isEmpty then [] else [.ambiguous input_name]) }
      else if f ∈ s1.used then
        { s1 with warnings := s1.warnings ++ [.duplicate input_name f] }
      else
        let s2 := { s1 with mapping := s1.mapping ++ [(input_name, f)],
                            used := s1.used ++ [f],
                            mapped_count := s1.mapped_count + 1 }
        if r.match_type = "exact" then { s2 with exact_matches := s2.exact_matches + 1 }
        else if r.match_type = "alias" then { s2 with alias_matches := s2.alias_matches + 1 }
        else if r.match_type = "fuzzy" then
          { s2 with fuzzy_matches := s2.fuzzy_matches + 1,
                    warnings := s2.warnings ++ [.fuzzyMatch input_name f] }
        else s2
    | none =>
      { s1 with unmapped_count := s1.unmapped_count + 1,
                unmapped_fields := s1.unmapped_fields ++ [input_name],
                warnings := s1.warnings ++
                  (if r.fuzzy_candidates.isEmpty then [] else [.ambiguous input_name]) }

/-- State of map_fields after processing a list of input labels. -/
def mapFieldsState (reverse : List (String × String)) (θ : ℚ)
    (simScore : String → String → ℚ) (input_fields : List String) : MapState :=
  input_fields.foldl (mapStep reverse θ simScore) {}

/-- Embedding of FieldMapper.map_fields: the returned mapping table and the
final diagnostics state. -/
def mapFields (reverse : List (String × String)) (θ : ℚ)
    (simScore : String → String → ℚ) (input_fields : List String) :
    List (String × String) × MapState :=
  ((mapFieldsState reverse θ simScore input_fields).mapping,
   mapFieldsState reverse θ simScore input_fields)

/-! ## Sign normalisation (normalize_signs) -/

/-- Settings of a mapping configuration (MappingConfig property defaults). -/
structure MappingSettings where
  fuzzy_threshold : ℚ := 85
  unmapped_fields_policy : String := "warn"
  auto_sign_normalization : Bool := true

/-- Cash-flow outflow fields forced non-positive.  The source keeps them in
a Python set whose iteration order is unspecified; the updates touch
pairwise distinct keys, so any fixed order is faithful. -/
def NEGATIVE_CF_FIELDS : List String :=
  ["capex", "acquisitions", "purchase_of_investments", "debt_repayment",
   "share_repurchases", "dividends_paid"]

/-- Negate the entry of one field name when its value is strictly
positive (dict update on an association list). -/
def negApply (d : List (String × ℚ)) (fname : String) : List (String × ℚ) :=
  d.map (fun e => if e.1 = fname ∧ 0 < e.2 then (e.1, -e.2) else e)

/-- Embedding of normalize_signs. -/
def normalizeSigns (data : List (String × ℚ)) (statement_type : String)
    (cfg : MappingSettings) : List (String × ℚ) :=
  if !cfg.auto_sign_normalization then data
  else if statement_type = "cash_flow" then NEGATIVE_CF_FIELDS.foldl negApply data
  else data

/-! ## Number parsing (parsers._parse_number and stacked_parser._to_float) -/

/-- A spreadsheet / CSV cell value as seen by the parsers: Python None, an
int, a float, or a string. -/
inductive Cell
  | empty
  | intVal (n : Int)
  | floatVal (q : ℚ)
  | str (s : String)
deriving DecidableEq

/-- Numeric value of a digit character. -/
def digitVal (c : Char) : Nat := c.toNat - '0'.toNat

/-- Natural number denoted by a digit list. -/
def natOfDigits (l : List Char) : Nat := l.foldl (fun acc c => acc * 10 + digitVal c) 0

/-- Model of Python float() on the plain decimal fragment: optional
surrounding whitespace, optional sign, digits with an optional single
decimal point, at least one digit.  Exponent, inf/nan and underscore
forms, which none of the verified paths exercise, are not in the
fragment.  none models the ValueError raised on anything else. -/
def pyFloatChars (l : List Char) : Option ℚ :=
  let t := trimChars l
  let signBody : ℚ × List Char :=
    match t with
    | '+' :: rest => (1, rest)
    | '-' :: rest => (-1, rest)
    | _ => (1, t)
  let intPart := signBody.2.takeWhile Char.isDigit
  match signBody.2.drop intPart.length with
  | [] => if intPart.isEmpty then none else some (signBody.1 * natOfDigits intPart)
  | '.' :: frac =>
    if frac.all Char.isDigit ∧ ¬(intPart.isEmpty ∧ frac.isEmpty) then
      some (signBody.1 * ((natOfDigits intPart : ℚ) + (natOfDigits frac : ℚ) / (10 ^ frac.length)))
    else none
  | _ => none

/-- Sentinels of _parse_number (the source tuple lists "-" twice). -/
def parseNumberSentinels : List String := ["-", "—", "–", "N/A", "n/a", "#N/A"]

/-- Embedding of parsers._parse_number; none models the ValueError escaping
it on unparseable non-sentinel strings. -/
def parseNumber (c : Cell) : Option ℚ :=
  match c with
  | .empty => some 0
  | .intVal n => some (n : ℚ)
  | .floatVal q => some q
  | .str v =>
    let s := trimChars v.data
    if s.isEmpty ∨ parseNumberSentinels.contains (String.mk s) then some 0
    else
      let negBody : Bool × List Char :=
        if s.head? = some '(' ∧ s.getLast? = some ')' then (true, (s.drop 1).dropLast)
        else (false, s)
      let s2 := trimChars (negBody.2.filter (fun ch => !(ch = '$' ∨ ch = ',' ∨ ch = '%')))
      if s2.isEmpty then some 0
      else (pyFloatChars s2).map (fun val => if negBody.1 then -val else val)

/-- Sentinels of stacked_parser._to_float: the lowercase n/a is absent. -/
def toFloatSentinels : List String := ["-", "—", "–", "N/A", "#N/A"]

/-- Embedding of stacked_parser._to_float; none models the ValueError.  The
call site in parse_stacked_sheet does not catch it. -/
def toFloat (c : Cell) : Option ℚ :=
  match c with
  | .empty => some 0
  | .intVal n => some (n : ℚ)
  | .floatVal q => some q
  | .str v =>
    let s := trimChars v.data
    if s.isEmpty ∨ toFloatSentinels.contains (String.mk s) then some 0
    else
      let negBody : Bool × List Char :=
        if s.head? = some '(' ∧ s.getLast? = some ')' then (true, (s.drop 1).dropLast)
        else (false, s)
      let s2 := trimChars (negBody.2.filter (fun ch => !(ch = ',' ∨ ch = '$' ∨ ch = '₹' ∨ ch = '%')))
      if s2.isEmpty then some 0
      else (pyFloatChars s2).map (fun val => if negBody.1 then -val else val)

/-- Effect of one tabular cell on its target field: _parse_tabular_data
wraps _parse_number in try/except, so on failure the assignment is skipped
and the field keeps its previous value (the dataclass default 0.0). -/
def applyCellTabular (old : ℚ) (c : Cell) : ℚ := (parseNumber c).getD old

/-! ## Stacked parser: period detection and company name -/

/-- Tail of the strict period regex after the four digits: optional
whitespace then one optional marker letter, then end of string. -/
def periodTail (l : List Char) : Bool :=
  match l.dropWhile isPySpace with
  | [] => true
  | [c] => ['E', 'e', 'P', 'p', 'F', 'f', 'A', 'a', 'B', 'b'].contains c
  | _ => false

/-- Four digits followed by the period tail. -/
def periodCore (l : List Char) : Bool :=
  match l with
  | d1 :: d2 :: d3 :: d4 :: rest =>
    d1.isDigit && d2.isDigit && d3.isDigit && d4.isDigit && periodTail rest
  | _ => false

/-- Optional single whitespace-or-hyphen separator after Q1..Q4 / H1..H2,
then the digit core.  The separator characters are never digits, so the
greedy optional needs no backtracking. -/
def periodSep (l : List Char) : Bool :=
  match l with
  | c :: rest => if isPySpace c ∨ c = '-' then periodCore rest else periodCore l
  | [] => false

/-- The strict case-insensitive period regex of the stacked parser.  The
alternative prefixes start with pairwise distinct non-digit letters, so
first-match translation is exact. -/
def matchPeriod (l : List Char) : Bool :=
  match l with
  | a :: b :: rest =>
    if (a.toLower = 'f' ∨ a.toLower = 'c') ∧ b.toLower = 'y' then periodCore rest
    else if a.toLower = 'q' ∧ ('1' ≤ b ∧ b ≤ '4') then periodSep rest
    else if a.toLower = 'h' ∧ (b = '1' ∨ b = '2') then periodSep rest
    else periodCore l
  | _ => periodCore l

/-- _is_period(str(v)) on a cell.  Python str() of a float always shows a
decimal point or an exponent, which the regex rejects, so float cells
never match; None cells are already excluded at every call site. -/
def isPeriodCell (c : Cell) : Bool :=
  match c with
  | .empty => false
  | .str s => matchPeriod (trimChars s.data)
  | .intVal n => matchPeriod (trimChars (toString n).data)
  | .floatVal _ => false

/-- Number of cells of a row that are non-None and look like periods. -/
def periodCount (row : List Cell) : Nat :=
  row.countP (fun v => decide (v ≠ Cell.empty) && isPeriodCell v)

/-- Embedding of _detect_period_row: first index in
range(start, min(stop, len(rows))) whose row has at least two period
cells. -/
def detectPeriodRow (rows : List (List Cell)) (start stop : Nat) : Option Nat :=
  (List.range' start (min stop rows.length - start)).find?
    (fun i => 2 ≤ periodCount (rows.getD i []))

/-- The call site in parse_stacked_sheet:
_detect_period_row(all_rows, start, min(start + 5, end + 1)). -/
def sectionPeriodRow (rows : List (List Cell)) (headerIdx endIdx : Nat) : Option Nat :=
  detectPeriodRow rows headerIdx (min (headerIdx + 5) (endIdx + 1))

/-- Prefix of a string before its first em-dash, stripped. -/
def emDashPrefix (s : String) : String :=
  ⟨trimChars (s.data.takeWhile (fun c => c ≠ '—'))⟩

/-- First truthy string cell of a row containing an em-dash, mapped to its
stripped prefix (the inner loop of the company-name scan). -/
def rowEmDash (row : List Cell) : Option String :=
  row.findSome? (fun c =>
    match c with
    | .str s => if s ≠ "" ∧ '—' ∈ s.data then some (emDashPrefix s) else none
    | _ => none)

/-- Company-name scan of parse_stacked_sheet over the first five rows: each
row holding an em-dash cell assigns model.company_name, so a later row
among the five overwrites an earlier one. -/
def companyNameScan (rows : List (List Cell)) : Option String :=
  (rows.take 5).foldl
    (fun acc row => match rowEmDash row with
      | some n => some n
      | none => acc) none

/-! ## Financial model (src/engine/models.py) -/

/-- Severity levels of check results. -/
inductive Severity
  | pass
  | info
  | warning
  | error
  | critical
deriving DecidableEq

/-- A check result.  The purely presentational fields of the source record
(check_name, message text, delta, delta_pct, the echoed tolerance, and the
details payload) are omitted; the item tag distinguishes the several
results a single check may emit for one period. -/
structure CheckResult where
  period : String
  item : String := ""
  passed : Bool
  severity : Severity
  expected : Option ℚ := none
  actual : Option ℚ := none
deriving DecidableEq

/-- BaseCheck._make_result: severity is PASS when passed, else the
check's fail severity. -/
def mkResult (period item : String) (passed : Bool) (sevOnFail : Severity)
    (expected actual : Option ℚ) : CheckResult :=
  ⟨period, item, passed, if passed then .pass else sevOnFail, expected, actual⟩

/-- BaseCheck._is_close via math.isclose:
|a − b| ≤ max(rel_tol·max(|a|, |b|), abs_tol). -/
def isClose (relTol absTol a b : ℚ) : Bool :=
  decide (|a - b| ≤ max (relTol * max |a| |b|) absTol)

/-- Single-period income statement (defaults as in the dataclass). -/
structure IncomeStatement where
  period : String
  revenue : ℚ := 0
  cogs : ℚ := 0
  gross_profit : ℚ := 0
  sga : ℚ := 0
  rd : ℚ := 0
  other_opex : ℚ := 0
  depreciation : ℚ := 0
  amortization : ℚ := 0
  total_opex : ℚ := 0
  ebit : ℚ := 0
  interest_expense : ℚ := 0
  interest_income : ℚ := 0
  other_income_expense : ℚ := 0
  ebt : ℚ := 0
  tax_expense : ℚ := 0
  net_income : ℚ := 0
  ebitda : Option ℚ := none
  effective_tax_rate : Option ℚ := none
  shares_outstanding_basic : Option ℚ := none
  shares_outstanding_diluted : Option ℚ := none
  eps_basic : Option ℚ := none
  eps_diluted : Option ℚ := none
deriving DecidableEq

/-- Single-period balance sheet. -/
structure BalanceSheet where
  period : String
  cash : ℚ := 0
  short_term_investments : ℚ := 0
  accounts_receivable : ℚ := 0
  inventory : ℚ := 0
  prepaid_expenses : ℚ := 0
  other_current_assets : ℚ := 0
  total_current_assets : ℚ := 0
  ppe_gross : ℚ := 0
  accumulated_depreciation : ℚ := 0
  ppe_net : ℚ := 0
  goodwill : ℚ := 0
  intangible_assets : ℚ := 0
  other_non_current_assets : ℚ := 0
  total_non_current_assets : ℚ := 0
  total_assets : ℚ := 0
  accounts_payable : ℚ := 0
  accrued_liabilities : ℚ := 0
  short_term_debt : ℚ := 0
  current_portion_ltd : ℚ := 0
  other_current_liabilities : ℚ := 0
  total_current_liabilities : ℚ := 0
  long_term_debt : ℚ := 0
  deferred_tax_liability : ℚ := 0
  other_non_current_liabilities : ℚ := 0
  total_non_current_liabilities : ℚ := 0
  total_liabilities : ℚ := 0
  common_stock : ℚ := 0
  additional_paid_in_capital : ℚ := 0
  retained_earnings : ℚ := 0
  treasury_stock : ℚ := 0
  accumulated_other_comprehensive_income : ℚ := 0
  total_equity : ℚ := 0
  total_liabilities_and_equity : ℚ := 0
deriving DecidableEq

/-- Single-period cash flow statement. -/
structure CashFlowStatement where
  period : String
  net_income : ℚ := 0
  depreciation_amortization : ℚ := 0
  stock_based_compensation : ℚ := 0
  deferred_taxes : ℚ := 0
  change_in_receivables : ℚ := 0
  change_in_inventory : ℚ := 0
  change_in_payables : ℚ := 0
  change_in_other_working_capital : ℚ := 0
  other_operating : ℚ := 0
  cash_from_operations : ℚ := 0
  capex : ℚ := 0
  acquisitions : ℚ := 0
  purchase_of_investments : ℚ := 0
  sale_of_investments : ℚ := 0
  other_investing : ℚ := 0
  cash_from_investing : ℚ := 0
  debt_issuance : ℚ := 0
  debt_repayment : ℚ := 0
  equity_issuance : ℚ := 0
  share_repurchases : ℚ := 0
  dividends_paid : ℚ := 0
  other_financing : ℚ := 0
  cash_from_financing : ℚ := 0
  net_change_in_cash : ℚ := 0
  beginning_cash : ℚ := 0
  ending_cash : ℚ := 0
  free_cash_flow : Option ℚ := none
deriving DecidableEq

/-- The three-statement model.  The opaque metadata dict of the source,
unused by every verified component, is not carried. -/
structure FinancialModel where
  company_name : String := "Unknown"
  currency : String := "USD"
  unit : String := "millions"
  periods : List String := []
  historical_periods : List String := []
  projected_periods : List String := []
  income_statements : List (String × IncomeStatement) := []
  balance_sheets : List (String × BalanceSheet) := []
  cash_flows : List (String × CashFlowStatement) := []

/-- sorted(set(l)) on strings: deduplicate then sort lexicographically by
code point, as Python does. -/
def sortedUnique (l : List String) : List String :=
  (dedupFirst l).mergeSort (fun a b => decide (a ≤ b))

/-- FinancialModel.get_ordered_periods. -/
def getOrderedPeriods (m : FinancialModel) : List String :=
  if m.periods.isEmpty then
    sortedUnique ((m.income_statements.map Prod.fst) ++ (m.balance_sheets.map Prod.fst) ++
      (m.cash_flows.map Prod.fst))
  else m.periods

/-- Concatenated per-element results, the shape of every check loop. -/
def listFlat {α β : Type} (l : List α) (f : α → List β) : List β := (l.map f).flatten

/-- Consecutive (prev, curr) period pairs, as range(1, len(periods)). -/
def adjPairs (l : List String) : List (String × String) := l.zip (l.drop 1)

/-! ## Structural checks (src/engine/checks/structural.py) -/

/-- STR-001 Balance Sheet Balances (A = L + E), critical. -/
def runSTR001 (t p : ℚ) (m : FinancialModel) : List CheckResult :=
  listFlat (getOrderedPeriods m) (fun per =>
    match List.lookup per m.balance_sheets with
    | none => []
    | some bs =>
      [mkResult per "" (isClose p t bs.total_assets bs.total_liabilities_and_equity) .critical
        (some bs.total_assets) (some bs.total_liabilities_and_equity)])

/-- STR-002 Total Assets Summation, error. -/
def runSTR002 (t p : ℚ) (m : FinancialModel) : List CheckResult :=
  listFlat (getOrderedPeriods m) (fun per =>
    match List.lookup per m.balance_sheets with
    | none => []
    | some bs =>
      let computed := bs.total_current_assets + bs.total_non_current_assets
      [mkResult per "" (isClose p t computed bs.total_assets) .error
        (some computed) (some bs.total_assets)])

/-- STR-003 Total Liabilities Summation, error. -/
def runSTR003 (t p : ℚ) (m : FinancialModel) : List CheckResult :=
  listFlat (getOrderedPeriods m) (fun per =>
    match List.lookup per m.balance_sheets with
    | none => []
    | some bs =>
      let computed := bs.total_current_liabilities + bs.total_non_current_liabilities
      [mkResult per "" (isClose p t computed bs.total_liabilities) .error
        (some computed) (some bs.total_liabilities)])

/-- STR-004 Liabilities + Equity Summation, error. -/
def runSTR004 (t p : ℚ) (m : FinancialModel) : List CheckResult :=
  listFlat (getOrderedPeriods m) (fun per =>
    match List.lookup per m.balance_sheets with
    | none => []
    | some bs =>
      let computed := bs.total_liabilities + bs.total_equity
      [mkResult per "" (isClose p t computed bs.total_liabilities_and_equity) .error
        (some computed) (some bs.total_liabilities_and_equity)])

/-- STR-010 Gross Profit Calculation, error. -/
def runSTR010 (t p : ℚ) (m : FinancialModel) : List CheckResult :=
  listFlat (getOrderedPeriods m) (fun per =>
    match List.lookup per m.income_statements with
    | none => []
    | some ist =>
      let computed := ist.revenue - ist.cogs
      [mkResult per "" (isClose p t computed ist.gross_profit) .error
        (some computed) (some ist.gross_profit)])

/-- STR-011 EBIT Calculation, error: uses total_opex when nonzero, else the
component sum. -/
def runSTR011 (t p : ℚ) (m : FinancialModel) : List CheckResult :=
  listFlat (getOrderedPeriods m) (fun per =>
    match List.lookup per m.income_statements with
    | none => []
    | some ist =>
      let computed :=
        if ist.total_opex ≠ 0 then ist.gross_profit - ist.total_opex
        else ist.gross_profit -
          (ist.sga + ist.rd + ist.depreciation + ist.amortization + ist.other_opex)
      [mkResult per "" (isClose p t computed ist.ebit) .error
        (some computed) (some ist.ebit)])

/-- STR-012 EBT Calculation, error. -/
def runSTR012 (t p : ℚ) (m : FinancialModel) : List CheckResult :=
  listFlat (getOrderedPeriods m) (fun per =>
    match List.lookup per m.income_statements with
    | none => []
    | some ist =>
      let computed := ist.ebit - ist.interest_expense + ist.interest_income +
        ist.other_income_expense
      [mkResult per "" (isClose p t computed ist.ebt) .error
        (some computed) (some ist.ebt)])

/-- STR-013 Net Income Calculation, error. -/
def runSTR013 (t p : ℚ) (m : FinancialModel) : List CheckResult :=
  listFlat (getOrderedPeriods m) (fun per =>
    match List.lookup per m.income_statements with
    | none => []
    | some ist =>
      let computed := ist.ebt - ist.tax_expense
      [mkResult per "" (isClose p t computed ist.net_income) .error
        (some computed) (some ist.net_income)])

/-- STR-020 Cash Flow Reconciliation, critical. -/
def runSTR020 (t p : ℚ) (m : FinancialModel) : List CheckResult :=
  listFlat (getOrderedPeriods m) (fun per =>
    match List.lookup per m.cash_flows with
    | none => []
    | some cf =>
      let computed := cf.beginning_cash + cf.net_change_in_cash
      [mkResult per "" (isClose p t computed cf.ending_cash) .critical
        (some computed) (some cf.ending_cash)])

/-- STR-021 Net Change in Cash Calculation, critical. -/
def runSTR021 (t p : ℚ) (m : FinancialModel) : List CheckResult :=
  listFlat (getOrderedPeriods m) (fun per =>
    match List.lookup per m.cash_flows with
    | none => []
    | some cf =>
      let computed := cf.cash_from_operations + cf.cash_from_investing + cf.cash_from_financing
      [mkResult per "" (isClose p t computed cf.net_change_in_cash) .critical
        (some computed) (some cf.net_change_in_cash)])

/-- STR-022 Cash From Operations Build-Up, error. -/
def runSTR022 (t p : ℚ) (m : FinancialModel) : List CheckResult :=
  listFlat (getOrderedPeriods m) (fun per =>
    match List.lookup per m.cash_flows with
    | none => []
    | some cf =>
      let computed := cf.net_income + cf.depreciation_amortization +
        cf.stock_based_compensation + cf.deferred_taxes + cf.change_in_receivables +
        cf.change_in_inventory + cf.change_in_payables +
        cf.change_in_other_working_capital + cf.other_operating
      [mkResult per "" (isClose p t computed cf.cash_from_operations) .error
        (some computed) (some cf.cash_from_operations)])

/-- STR-030 Net PP&E Calculation, error; skipped when the three PPE fields
are all zero. -/
def runSTR030 (t p : ℚ) (m : FinancialModel) : List CheckResult :=
  listFlat (getOrderedPeriods m) (fun per =>
    match List.lookup per m.balance_sheets with
    | none => []
    | some bs =>
      if bs.ppe_gross = 0 ∧ bs.accumulated_depreciation = 0 ∧ bs.ppe_net = 0 then []
      else
        let computed := bs.ppe_gross - bs.accumulated_depreciation
        [mkResult per "" (isClose p t computed bs.ppe_net) .error
          (some computed) (some bs.ppe_net)])

/-- STR-031 Current Assets Breakdown, error. -/
def runSTR031 (t p : ℚ) (m : FinancialModel) : List CheckResult :=
  listFlat (getOrderedPeriods m) (fun per =>
    match List.lookup per m.balance_sheets with
    | none => []
    | some bs =>
      let computed := bs.cash + bs.short_term_investments + bs.accounts_receivable +
        bs.inventory + bs.prepaid_expenses + bs.other_current_assets
      [mkResult per "" (isClose p t computed bs.total_current_assets) .error
        (some computed) (some bs.total_current_assets)])

/-- STR-032 Current Liabilities Breakdown, error. -/
def runSTR032 (t p : ℚ) (m : FinancialModel) : List CheckResult :=
  listFlat (getOrderedPeriods m) (fun per =>
    match List.lookup per m.balance_sheets with
    | none => []
    | some bs =>
      let computed := bs.accounts_payable + bs.accrued_liabilities + bs.short_term_debt +
        bs.current_portion_ltd + bs.other_current_liabilities
      [mkResult per "" (isClose p t computed bs.total_current_liabilities) .error
        (some computed) (some bs.total_current_liabilities)])

/-- STR-033 Total Equity Breakdown, error. -/
def runSTR033 (t p : ℚ) (m : FinancialModel) : List CheckResult :=
  listFlat (getOrderedPeriods m) (fun per =>
    match List.lookup per m.balance_sheets with
    | none => []
    | some bs =>
      let computed := bs.common_stock + bs.additional_paid_in_capital +
        bs.retained_earnings + bs.treasury_stock +
        bs.accumulated_other_comprehensive_income
      [mkResult per "" (isClose p t computed bs.total_equity) .error
        (some computed) (some bs.total_equity)])

/-! ## Cross-statement checks (src/engine/checks/cross_statement.py) -/

/-- XST-001 Net Income Linkage (IS → CF), critical. -/
def runXST001 (t p : ℚ) (m : FinancialModel) : List CheckResult :=
  listFlat (getOrderedPeriods m) (fun per =>
    match List.lookup per m.income_statements, List.lookup per m.cash_flows with
    | some ist, some cf =>
      [mkResult per "" (isClose p t ist.net_income cf.net_income) .critical
        (some ist.net_income) (some cf.net_income)]
    | _, _ => [])

/-- XST-002 Retained Earnings Rollforward, error, with the widened
per-check tolerance max(abs_tol, 2%·|actual|). -/
def runXST002 (t p : ℚ) (m : FinancialModel) : List CheckResult :=
  listFlat (adjPairs (getOrderedPeriods m)) (fun pr =>
    match List.lookup pr.1 m.balance_sheets, List.lookup pr.2 m.balance_sheets,
          List.lookup pr.2 m.income_statements with
    | some bsPrev, some bsCurr, some ist =>
      let dividends := match List.lookup pr.2 m.cash_flows with
        | some cf => cf.dividends_paid
        | none => 0
      let computed := bsPrev.retained_earnings + ist.net_income + dividends
      let actual := bsCurr.retained_earnings
      [mkResult pr.2 "" (isClose p (max t (|actual| * (2/100))) computed actual) .error
        (some computed) (some actual)]
    | _, _, _ => [])

/-- XST-003 Ending Cash Linkage (CF → BS), critical. -/
def runXST003 (t p : ℚ) (m : FinancialModel) : List CheckResult :=
  listFlat (getOrderedPeriods m) (fun per =>
    match List.lookup per m.cash_flows, List.lookup per m.balance_sheets with
    | some cf, some bs =>
      [mkResult per "" (isClose p t cf.ending_cash bs.cash) .critical
        (some cf.ending_cash) (some bs.cash)]
    | _, _ => [])

/-- XST-004 Cash Continuity Between Periods, critical. -/
def runXST004 (t p : ℚ) (m : FinancialModel) : List CheckResult :=
  listFlat (adjPairs (getOrderedPeriods m)) (fun pr =>
    match List.lookup pr.1 m.cash_flows, List.lookup pr.2 m.cash_flows with
    | some cfPrev, some cfCurr =>
      [mkResult pr.2 "" (isClose p t cfPrev.ending_cash cfCurr.beginning_cash) .critical
        (some cfPrev.ending_cash) (some cfCurr.beginning_cash)]
    | _, _ => [])

/-- XST-005 D&A Linkage (IS ↔ CF), warning; skipped when both sides are
zero. -/
def runXST005 (t p : ℚ) (m : FinancialModel) : List CheckResult :=
  listFlat (getOrderedPeriods m) (fun per =>
    match List.lookup per m.income_statements, List.lookup per m.cash_flows with
    | some ist, some cf =>
      let isDa := ist.depreciation + ist.amortization
      let cfDa := cf.depreciation_amortization
      if isDa = 0 ∧ cfDa = 0 then []
      else [mkResult per "" (isClose p t isDa cfDa) .warning (some isDa) (some cfDa)]
    | _, _ => [])

/-- XST-006 PP&E Rollforward, warning, tolerance max(abs_tol, 5%·|actual|). -/
def runXST006 (t p : ℚ) (m : FinancialModel) : List CheckResult :=
  listFlat (adjPairs (getOrderedPeriods m)) (fun pr =>
    match List.lookup pr.1 m.balance_sheets, List.lookup pr.2 m.balance_sheets,
          List.lookup pr.2 m.cash_flows with
    | some bsPrev, some bsCurr, some cf =>
      let dep := match List.lookup pr.2 m.income_statements with
        | some ist => ist.depreciation
        | none => cf.depreciation_amortization
      let computed := bsPrev.ppe_net + (-cf.capex) - dep
      let actual := bsCurr.ppe_net
      if bsPrev.ppe_net = 0 ∧ actual = 0 then []
      else
        [mkResult pr.2 "" (isClose p (max t (|actual| * (5/100))) computed actual) .warning
          (some computed) (some actual)]
    | _, _, _ => [])

/-- Total debt of a balance sheet, as the local helper of XST-007/008. -/
def totalDebt (bs : BalanceSheet) : ℚ :=
  bs.short_term_debt + bs.current_portion_ltd + bs.long_term_debt

/-- XST-007 Total Debt Rollforward, warning, tolerance
max(abs_tol, 3%·|debt_curr|). -/
def runXST007 (t p : ℚ) (m : FinancialModel) : List CheckResult :=
  listFlat (adjPairs (getOrderedPeriods m)) (fun pr =>
    match List.lookup pr.1 m.balance_sheets, List.lookup pr.2 m.balance_sheets,
          List.lookup pr.2 m.cash_flows with
    | some bsPrev, some bsCurr, some cf =>
      let debtPrev := totalDebt bsPrev
      let debtCurr := totalDebt bsCurr
      let computed := debtPrev + cf.debt_issuance + cf.debt_repayment
      if debtPrev = 0 ∧ debtCurr = 0 then []
      else
        [mkResult pr.2 "" (isClose p (max t (|debtCurr| * (3/100))) computed debtCurr) .warning
          (some computed) (some debtCurr)]
    | _, _, _ => [])

/-- XST-008 Interest Expense vs. Avg Debt, warning; implied rate must lie
in [0.5%, 15%]. -/
def runXST008 (t p : ℚ) (m : FinancialModel) : List CheckResult :=
  listFlat (adjPairs (getOrderedPeriods m)) (fun pr =>
    match List.lookup pr.1 m.balance_sheets, List.lookup pr.2 m.balance_sheets,
          List.lookup pr.2 m.income_statements with
    | some bsPrev, some bsCurr, some ist =>
      let avgDebt := (totalDebt bsPrev + totalDebt bsCurr) / 2
      if avgDebt ≤ 0 ∨ ist.interest_expense ≤ 0 then []
      else
        let rate := ist.interest_expense / avgDebt
        [mkResult pr.2 "" (decide ((5/1000 : ℚ) ≤ rate) && decide (rate ≤ 15/100)) .warning
          none (some rate)]
    | _, _, _ => [])

/-- XST-009 Working Capital Deltas (BS Δ vs. CF), warning, per-item
tolerance max(abs_tol, 5%·max(|bs_delta|, |cf|)). -/
def runXST009 (t p : ℚ) (m : FinancialModel) : List CheckResult :=
  listFlat (adjPairs (getOrderedPeriods m)) (fun pr =>
    match List.lookup pr.1 m.balance_sheets, List.lookup pr.2 m.balance_sheets,
          List.lookup pr.2 m.cash_flows with
    | some bsPrev, some bsCurr, some cf =>
      let items : List (String × ℚ × ℚ) :=
        [("ΔAR", -(bsCurr.accounts_receivable - bsPrev.accounts_receivable),
          cf.change_in_receivables),
         ("ΔInv", -(bsCurr.inventory - bsPrev.inventory), cf.change_in_inventory),
         ("ΔAP", bsCurr.accounts_payable - bsPrev.accounts_payable, cf.change_in_payables)]
      items.filterMap (fun it =>
        if it.2.1 = 0 ∧ it.2.2 = 0 then none
        else
          some (mkResult pr.2 it.1
            (isClose p (max t (max |it.2.1| |it.2.2| * (5/100))) it.2.1 it.2.2) .warning
            (some it.2.1) (some it.2.2)))
    | _, _, _ => [])

/-- XST-010 Effective Tax Rate Consistency, warning; ETR must lie in
[−5%, 50%]. -/
def runXST010 (t p : ℚ) (m : FinancialModel) : List CheckResult :=
  listFlat (getOrderedPeriods m) (fun per =>
    match List.lookup per m.income_statements with
    | none => []
    | some ist =>
      if ist.ebt = 0 then []
      else
        let etr := ist.tax_expense / ist.ebt
        [mkResult per "" (decide ((-(5/100) : ℚ) ≤ etr) && decide (etr ≤ 50/100)) .warning
          none (some etr)])

/-! ## Reasonableness checks (src/engine/checks/reasonableness.py) -/

/-- Historical margin samples for RSN-001: numerator / revenue over the
historical periods with nonzero revenue. -/
def histMargins (m : FinancialModel) (num : IncomeStatement → ℚ) : List ℚ :=
  m.historical_periods.filterMap (fun per =>
    match List.lookup per m.income_statements with
    | some ist => if ist.revenue ≠ 0 then some (num ist / ist.revenue) else none
    | none => none)

/-- RSN-001 body for one margin definition.  The source compares the
sample standard deviation: hist_std > 0 is encoded as sample variance > 0
and |z| > 2.5 as (m − mean)² > 2.5²·variance, which are equivalent over
the reals and stay inside ℚ. -/
def runRSN001margin (m : FinancialModel) (mname : String)
    (num : IncomeStatement → ℚ) : List CheckResult :=
  match histMargins m num with
  | m0 :: m1 :: rest =>
    let hist := m0 :: m1 :: rest
    let hmean := hist.foldl (· + ·) 0 / (hist.length : ℚ)
    let hvar := hist.foldl (fun acc x => acc + (x - hmean) ^ 2) 0 / ((hist.length : ℚ) - 1)
    let hmin := hist.foldl min m0
    let hmax := hist.foldl max m0
    m.projected_periods.filterMap (fun per =>
      match List.lookup per m.income_statements with
      | none => none
      | some ist =>
        if ist.revenue = 0 then none
        else
          let mv := num ist / ist.revenue
          let outside := decide (mv < hmin - 5/100) || decide (hmax + 5/100 < mv)
          let extreme :=
            if 0 < hvar then decide ((25/4 : ℚ) * hvar < (mv - hmean) ^ 2) else outside
          some (mkResult per mname (!(extreme || outside)) .warning (some hmean) (some mv)))
  | _ => []

/-- RSN-001 Margin Drift vs. Historical, warning. -/
def runRSN001 (t p : ℚ) (m : FinancialModel) : List CheckResult :=
  runRSN001margin m "Gross Margin" (fun ist => ist.gross_profit) ++
  runRSN001margin m "EBIT Margin" (fun ist => ist.ebit) ++
  runRSN001margin m "Net Margin" (fun ist => ist.net_income)

/-- RSN-002 Revenue Growth Reasonability; warning, escalated to error when
|growth| ≥ 100%. -/
def runRSN002 (t p : ℚ) (m : FinancialModel) : List CheckResult :=
  listFlat (adjPairs (getOrderedPeriods m)) (fun pr =>
    match List.lookup pr.1 m.income_statements, List.lookup pr.2 m.income_statements with
    | some istPrev, some istCurr =>
      if istPrev.revenue = 0 then []
      else
        let growth := (istCurr.revenue - istPrev.revenue) / |istPrev.revenue|
        [mkResult pr.2 "" (decide ((-(30/100) : ℚ) ≤ growth) && decide (growth ≤ 50/100))
          (if |growth| < 1 then .warning else .error) none (some growth)]
    | _, _ => [])

/-- RSN-003 Leverage & Coverage Ratios.  Python's `if ist.ebitda:` is
true only for a stated, nonzero EBITDA. -/
def runRSN003 (t p : ℚ) (m : FinancialModel) : List CheckResult :=
  listFlat (getOrderedPeriods m) (fun per =>
    match List.lookup per m.income_statements, List.lookup per m.balance_sheets with
    | some ist, some bs =>
      let debt := totalDebt bs
      let ebitdaBase := ist.ebit + ist.depreciation + ist.amortization
      let ebitda := match ist.ebitda with
        | some e => if e ≠ 0 then e else ebitdaBase
        | none => ebitdaBase
      let leverage : List CheckResult :=
        if 0 < ebitda then
          [mkResult per "Debt/EBITDA" (decide (debt / ebitda ≤ 8)) .warning
            none (some (debt / ebitda))]
        else []
      let coverage : List CheckResult :=
        if 0 < ist.interest_expense then
          let cov := ist.ebit / ist.interest_expense
          [mkResult per "Interest Coverage" (decide (1 ≤ cov))
            (if cov < 1 then .error else .warning) none (some cov)]
        else []
      leverage ++ coverage
    | _, _ => [])

/-- RSN-004 Working Capital Efficiency (DSO/DIO/DPO), warning. -/
def runRSN004 (t p : ℚ) (m : FinancialModel) : List CheckResult :=
  listFlat (getOrderedPeriods m) (fun per =>
    match List.lookup per m.income_statements, List.lookup per m.balance_sheets with
    | some ist, some bs =>
      let metrics : List (String × ℚ × ℚ × ℚ) :=
        (if 0 < ist.revenue then
          [("DSO", bs.accounts_receivable / (ist.revenue / 365), 0, 180)] else []) ++
        (if 0 < ist.cogs then
          [("DIO", bs.inventory / (ist.cogs / 365), 0, 365),
           ("DPO", bs.accounts_payable / (ist.cogs / 365), 0, 180)] else [])
      metrics.map (fun it =>
        mkResult per it.1 (decide (it.2.2.1 ≤ it.2.1) && decide (it.2.1 ≤ it.2.2.2)) .warning
          none (some it.2.1))
    | _, _ => [])

/-- RSN-005 Negative Balance Detection, error: a result is emitted only
for a value strictly below −tolerance_abs. -/
def runRSN005 (t p : ℚ) (m : FinancialModel) : List CheckResult :=
  listFlat (getOrderedPeriods m) (fun per =>
    let items : List (String × ℚ) :=
      (match List.lookup per m.balance_sheets with
       | some bs =>
         [("Cash", bs.cash), ("Accounts Receivable", bs.accounts_receivable),
          ("Inventory", bs.inventory), ("Total Assets", bs.total_assets),
          ("Accounts Payable", bs.accounts_payable)]
       | none => []) ++
      (match List.lookup per m.income_statements with
       | some ist => [("Revenue", ist.revenue), ("COGS", ist.cogs)]
       | none => [])
    items.filterMap (fun lv =>
      if lv.2 < -t then some (mkResult per lv.1 false .error (some 0) (some lv.2))
      else none))

/-- RSN-006 CapEx Intensity Check, warning. -/
def runRSN006 (t p : ℚ) (m : FinancialModel) : List CheckResult :=
  listFlat (getOrderedPeriods m) (fun per =>
    match List.lookup per m.income_statements, List.lookup per m.cash_flows with
    | some ist, some cf =>
      if ist.revenue = 0 then []
      else
        let ratio := |cf.capex| / ist.revenue
        [mkResult per "" (decide (ratio ≤ 40/100)) .warning none (some ratio)]
    | _, _ => [])

/-- RSN-007 worker: the loop over periods carrying the consecutive
negative-FCF streak; a missing cash flow skips the period without
resetting the streak. -/
def runRSN007go (t p : ℚ) (m : FinancialModel) : List String → Nat → List CheckResult
  | [], _ => []
  | per :: rest, streak =>
    match List.lookup per m.cash_flows with
    | none => runRSN007go t p m rest streak
    | some cf =>
      let computed := cf.cash_from_operations + cf.capex
      let eqRes : List CheckResult :=
        match cf.free_cash_flow with
        | some fcf =>
          [mkResult per "FCF" (isClose p t computed fcf) .error (some computed) (some fcf)]
        | none => []
      let streak2 := if computed < 0 then streak + 1 else 0
      let streakRes : List CheckResult :=
        if 3 ≤ streak2 then
          [mkResult per "Negative FCF streak" false .warning none none]
        else []
      eqRes ++ streakRes ++ runRSN007go t p m rest streak2

/-- RSN-007 Free Cash Flow Verification. -/
def runRSN007 (t p : ℚ) (m : FinancialModel) : List CheckResult :=
  runRSN007go t p m (getOrderedPeriods m) 0

/-! ## Check catalog and engine (src/engine/checks/__init__.py,
    src/engine/engine.py) -/

/-- One catalog entry: the check id and its run function instantiated with
(tolerance_abs, tolerance_pct). -/
structure Check where
  id : String
  run : ℚ → ℚ → FinancialModel → List CheckResult

/-- ALL_CHECKS in registration order: structural, cross-statement,
reasonableness. -/
def ALL_CHECKS : List Check :=
  [⟨"STR-001", runSTR001⟩, ⟨"STR-002", runSTR002⟩, ⟨"STR-003", runSTR003⟩,
   ⟨"STR-004", runSTR004⟩, ⟨"STR-010", runSTR010⟩, ⟨"STR-011", runSTR011⟩,
   ⟨"STR-012", runSTR012⟩, ⟨"STR-013", runSTR013⟩, ⟨"STR-020", runSTR020⟩,
   ⟨"STR-021", runSTR021⟩, ⟨"STR-022", runSTR022⟩, ⟨"STR-030", runSTR030⟩,
   ⟨"STR-031", runSTR031⟩, ⟨"STR-032", runSTR032⟩, ⟨"STR-033", runSTR033⟩,
   ⟨"XST-001", runXST001⟩, ⟨"XST-002", runXST002⟩, ⟨"XST-003", runXST003⟩,
   ⟨"XST-004", runXST004⟩, ⟨"XST-005", runXST005⟩, ⟨"XST-006", runXST006⟩,
   ⟨"XST-007", runXST007⟩, ⟨"XST-008", runXST008⟩, ⟨"XST-009", runXST009⟩,
   ⟨"XST-010", runXST010⟩, ⟨"RSN-001", runRSN001⟩, ⟨"RSN-002", runRSN002⟩,
   ⟨"RSN-003", runRSN003⟩, ⟨"RSN-004", runRSN004⟩, ⟨"RSN-005", runRSN005⟩,
   ⟨"RSN-006", runRSN006⟩, ⟨"RSN-007", runRSN007⟩]

/-- A registered check as the engine sees it: run either returns results
or raises (Except.error carries str(e)). -/
structure PyCheck where
  id : String
  name : String
  category : String
  run : FinancialModel → Except String (List CheckResult)

/-- One check_metadata entry of VerificationEngine.run. -/
inductive CheckMeta
  | completed (id name category : String) (result_count : Nat)
  | errored (id name category msg : String)
deriving DecidableEq

/-- Embedding of the VerificationEngine.run loop: per check a try/except
that appends either the results plus a completed entry or an errored
entry, never aborting the loop. -/
def engineRun (checks : List PyCheck) (m : FinancialModel) :
    List CheckResult × List CheckMeta :=
  checks.foldl (fun acc c =>
    match c.run m with
    | .ok rs => (acc.1 ++ rs, acc.2 ++ [.completed c.id c.name c.category rs.length])
    | .error e => (acc.1, acc.2 ++ [.errored c.id c.name c.category e])) ([], [])

/-! ## Lemmas about the reverse index -/

theorem mem_foldl_dedup (l : List String) (acc : List String) (a : String) :
    a ∈ l.foldl (fun acc x => if x ∈ acc then acc else acc ++ [x]) acc ↔ a ∈ acc ∨ a ∈ l := by
  induction l generalizing acc with
  | nil => simp
  | cons x xs ih =>
    simp only [List.foldl_cons, ih, List.mem_cons]
    by_cases hx : x ∈ acc
    · simp only [if_pos hx]
      constructor
      · rintro (h | h)
        · exact Or.inl h
        · exact Or.inr (Or.inr h)
      · rintro (h | rfl | h)
        · exact Or.inl h
        · exact Or.inl hx
        · exact Or.inr h
    · simp only [if_neg hx, List.mem_append, List.mem_singleton]
      tauto

theorem mem_dedupFirst (l : List String) (a : String) : a ∈ dedupFirst l ↔ a ∈ l := by
  simp [dedupFirst, mem_foldl_dedup]

theorem lookup_append_pair (key : String) (l1 l2 : List (String × String)) :
    List.lookup key (l1 ++ l2) =
      match List.lookup key l1 with
      | some w => some w
      | none => List.lookup key l2 := by
  induction l1 with
  | nil => simp [List.lookup]
  | cons p t ih =>
    by_cases h : key = p.1
    · simp [List.lookup, h]
    · simp only [List.cons_append, List.lookup]
      rw [beq_false_of_ne h]
      exact ih

theorem lookup_revInsert (key k v : String) (rev : List (String × String)) :
    List.lookup key (revInsert rev k v) =
      match List.lookup key rev with
      | some w => some w
      | none => if key = k then some v else none := by
  unfold revInsert
  by_cases hk : (List.lookup k rev).isSome
  · rw [if_pos hk]
    cases hkey : List.lookup key rev with
    | some w => rfl
    | none =>
      by_cases he : key = k
      · subst he
        rw [hkey] at hk
        simp at hk
      · simp [if_neg he]
  · rw [if_neg hk]
    rw [lookup_append_pair]
    cases hkey : List.lookup key rev with
    | some w => rfl
    | none =>
      by_cases he : key = k
      · simp [List.lookup, he]
      · simp [List.lookup, beq_false_of_ne he, if_neg he]

theorem lookup_formsFold (key v : String) (forms : List String) (rev : List (String × String)) :
    List.lookup key (forms.foldl (fun r na => revInsert r na v) rev) =
      match List.lookup key rev with
      | some w => some w
      | none => if key ∈ forms then some v else none := by
  induction forms generalizing rev with
  | nil =>
    simp only [List.foldl_nil]
    cases hkey : List.lookup key rev <;> simp [hkey]
  | cons f fs ih =>
    simp only [List.foldl_cons]
    rw [ih, lookup_revInsert]
    cases hkey : List.lookup key rev with
    | some w => rfl
    | none =>
      by_cases he : key = f
      · simp [he]
      · simp [if_neg he, List.mem_cons, he]

theorem lookup_buildFold (key : String) (defs : List (String × List String))
    (rev : List (String × String)) :
    List.lookup key (defs.foldl
        (fun rev fd => (fieldForms fd.1 fd.2).foldl (fun r na => revInsert r na fd.1) rev) rev) =
      match List.lookup key rev with
      | some w => some w
      | none => (defs.find? (fun fd => decide (key ∈ fieldForms fd.1 fd.2))).map Prod.fst := by
  induction defs generalizing rev with
  | nil =>
    simp only [List.foldl_nil]
    cases hkey : List.lookup key rev <;> simp [hkey]
  | cons fd rest ih =>
    simp only [List.foldl_cons]
    rw [ih, lookup_formsFold]
    cases hkey : List.lookup key rev with
    | some w => rfl
    | none =>
      by_cases hm : key ∈ fieldForms fd.1 fd.2
      · simp [List.find?, hm]
      · simp [List.find?, hm]

theorem lookup_buildReverse (key : String) (defs : List (String × List String)) :
    List.lookup key (buildReverse defs) =
      (defs.find? (fun fd => decide (key ∈ fieldForms fd.1 fd.2))).map Prod.fst := by
  unfold buildReverse
  rw [lookup_buildFold]
  simp [List.lookup]

theorem find?_append_first {α : Type} (P : α → Bool) (pre post : List α) (x : α)
    (hpre : ∀ g ∈ pre, P g = false) (hx : P x = true) :
    List.find? P (pre ++ x :: post) = some x := by
  induction pre with
  | nil => simp [List.find?, hx]
  | cons g gs ih =>
    have hg := hpre g (List.mem_cons_self g gs)
    simp only [List.cons_append, List.find?, hg]
    exact ih (fun g' hg' => hpre g' (List.mem_cons_of_mem g hg'))

/-! ## Claim theorems: the resolver -/

/-- C1.  Resolver exact-match dominance: whenever the canonical field F
declares a name or alias normalising to normalize(L), and F is the first
field in declaration order doing so (the loader's first-wins collision
rule), resolve_field(L) returns internal_field = F with match_type
"exact" and confidence 1.0. -/
theorem resolver_exact_dominance
    (defs pre post : List (String × List String)) (F : String) (As : List String)
    (L : String) (θ : ℚ) (simScore : String → String → ℚ)
    (hdefs : defs = pre ++ (F, As) :: post)
    (hforms : normalize L = normalize F ∨ ∃ a ∈ As, normalize L = normalize a)
    (hfirst : ∀ g ∈ pre, normalize L ∉ fieldForms g.1 g.2) :
    resolveField (buildReverse defs) θ simScore L =
      ⟨L, normalize L, some F, "exact", 1, []⟩ := by
  have hmem : normalize L ∈ fieldForms F As := by
    rw [fieldForms, mem_dedupFirst, List.mem_append]
    rcases hforms with h | ⟨a, ha, h⟩
    · exact Or.inr (by simp [h])
    · exact Or.inl (by rw [h]; exact List.mem_map_of_mem normalize ha)
  have hkey : List.lookup (normalize L) (buildReverse defs) = some F := by
    rw [hdefs, lookup_buildReverse]
    rw [find?_append_first _ pre post (F, As)
      (fun g hg => by simpa using hfirst g hg) (by simpa using hmem)]
    rfl
  simp only [resolveField]
  rw [hkey]

/-- Witness for C1 at a concrete configuration in which a second canonical
field declares a colliding alias; the first field wins. -/
theorem resolver_exact_dominance_witness :
    resolveField (buildReverse [("revenue", ["sales"]), ("other_income", ["sales"])])
        85 (fun _ _ => 0) "Sales" =
      ⟨"Sales", "sales", some "revenue", "exact", 1, []⟩ :=
  resolver_exact_dominance _ [] [("other_income", ["sales"])] "revenue" ["sales"]
    "Sales" 85 (fun _ _ => 0) rfl (by decide) (by decide)

/-- C10.  With fuzzy_threshold ≤ 0 the fuzzy stage is skipped entirely: a
label missed by the exact, aggressive-exact and substring stages comes
back unmapped with confidence 0 and no fuzzy candidates. -/
theorem fuzzy_skipped_at_zero_threshold
    (reverse : List (String × String)) (θ : ℚ) (simScore : String → String → ℚ) (L : String)
    (h1 : List.lookup (normalize L) reverse = none)
    (h2 : List.lookup (normalizeAggressive L) reverse = none)
    (h3 : reverse.find? (fun p => decide (3 < p.1.length) &&
        (substrIn p.1.data (normalize L).data || substrIn (normalize L).data p.1.data)) = none)
    (hθ : θ ≤ 0) :
    resolveField reverse θ simScore L = ⟨L, normalize L, none, "unmapped", 0, []⟩ := by
  simp only [resolveField]
  rw [h1, h2, h3, if_neg (not_lt.mpr hθ)]

/-- Witness for C10: a nonempty index whose only alias scores ratio 100
under the supplied similarity function, yet the result is unmapped with no
candidates because the threshold is 0. -/
theorem fuzzy_skipped_at_zero_threshold_witness :
    resolveField [("qqqq", "f")] 0 (fun _ _ => 1) "ab" =
      ⟨"ab", "ab", none, "unmapped", 0, []⟩ :=
  fuzzy_skipped_at_zero_threshold [("qqqq", "f")] 0 (fun _ _ => 1) "ab"
    (by decide) (by decide) (by decide) (by decide)

/-- C2.  Fuzzy ambiguity rule: when a label reaches the fuzzy stage and the
ratio-descending candidate list starts with best and rest, the result is
unmapped (with the top-3 candidates recorded) precisely when a second
candidate exists that maps to a different field within 5 ratio points;
otherwise the best candidate wins as a fuzzy match with confidence
ratio/100. -/
theorem fuzzy_ambiguity_rule
    (reverse : List (String × String)) (θ : ℚ) (simScore : String → String → ℚ) (L : String)
    (best : String × String × ℚ) (rest : List (String × String × ℚ))
    (h1 : List.lookup (normalize L) reverse = none)
    (h2 : List.lookup (normalizeAggressive L) reverse = none)
    (h3 : reverse.find? (fun p => decide (3 < p.1.length) &&
        (substrIn p.1.data (normalize L).data || substrIn (normalize L).data p.1.data)) = none)
    (hθ : 0 < θ)
    (hsort : sortCandDesc (fuzzyCandList reverse θ simScore (normalize L)) = best :: rest) :
    ((∃ second, rest.head? = some second ∧ best.1 ≠ second.1 ∧ best.2.2 - second.2.2 < 5) →
      resolveField reverse θ simScore L =
        ⟨L, normalize L, none, "unmapped", 0,
          ((best :: rest).take 3).map (fun c => (c.2.1, c.2.2))⟩) ∧
    ((∀ second, rest.head? = some second → best.1 = second.1 ∨ 5 ≤ best.2.2 - second.2.2) →
      resolveField reverse θ simScore L =
        ⟨L, normalize L, some best.1, "fuzzy", best.2.2 / 100,
          ((best :: rest).take 3).map (fun c => (c.2.1, c.2.2))⟩) := by
  cases rest with
  | nil =>
    constructor
    · rintro ⟨s2, hs, -, -⟩
      simp at hs
    · intro _
      simp only [resolveField, h1, h2, h3]
      rw [if_pos hθ, hsort]
      rfl
  | cons second rest2 =>
    have hred : resolveField reverse θ simScore L =
        (if (decide (best.1 ≠ second.1) && decide (best.2.2 - second.2.2 < 5)) = true then
          (⟨L, normalize L, none, "unmapped", 0,
            ((best :: second :: rest2).take 3).map (fun c => (c.2.1, c.2.2))⟩ : MappingResult)
        else
          ⟨L, normalize L, some best.1, "fuzzy", best.2.2 / 100,
            ((best :: second :: rest2).take 3).map (fun c => (c.2.1, c.2.2))⟩) := by
      simp only [resolveField, h1, h2, h3]
      rw [if_pos hθ, hsort]
    constructor
    · rintro ⟨s2, hs, hne, hlt⟩
      have hs2 : s2 = second := by simpa using hs.symm
      subst hs2
      have hcond : (decide (best.1 ≠ s2.1) && decide (best.2.2 - s2.2.2 < 5)) = true := by
        simp [hne, hlt]
      rw [hred, if_pos hcond]
    · intro hok
      have hcond : ¬((decide (best.1 ≠ second.1) && decide (best.2.2 - second.2.2 < 5)) = true) := by
        rcases hok second rfl with h | h
        · simp [h]
        · simp [not_lt.mpr h]
      rw [hred, if_neg hcond]

/-- Reverse index of the C2 witness: two canonical fields with close
aliases that are not substrings of the probe label. -/
def wC2rev : List (String × String) := [("gross profit", "f1"), ("groos profit", "f2")]

/-- Similarity function of the C2 witness: ratios 0.90 and 0.89, both past
the threshold 70, one point apart. -/
def wC2score : String → String → ℚ :=
  fun _ a => if a = "gross profit" then 9/10 else 89/100

/-- Witness for C2 at a concrete ambiguous input: two candidates for
different fields within 5 points force an unmapped result carrying both
candidates. -/
theorem fuzzy_ambiguity_rule_witness :
    (resolveField wC2rev 70 wC2score "gross profyt").match_type = "unmapped" ∧
    (resolveField wC2rev 70 wC2score "gross profyt").internal_field = none ∧
    (resolveField wC2rev 70 wC2score "gross profyt").fuzzy_candidates.map Prod.fst =
      ["gross profit", "groos profit"] := by
  have hsort : sortCandDesc (fuzzyCandList wC2rev 70 wC2score (normalize "gross profyt")) =
      [("f1", "gross profit", 90), ("f2", "groos profit", 89)] := by
    have h90 : (100 : ℚ) * (9/10) = 90 := by norm_num
    have h89 : (100 : ℚ) * (89/100) = 89 := by norm_num
    simp only [wC2rev, wC2score, fuzzyCandList, List.filterMap_cons, List.filterMap_nil]
    have hq : (if "groos profit" = "gross profit" then (90 : ℚ) else 89) = 89 := if_neg (by decide)
    norm_num [h90, h89, sortCandDesc, List.insertionSort, List.orderedInsert, hq]
  have happ := fuzzy_ambiguity_rule wC2rev 70 wC2score "gross profyt"
    ("f1", "gross profit", 90) [("f2", "groos profit", 89)]
    (by decide) (by decide) (by decide) (by norm_num) hsort
  have h := happ.1 ⟨("f2", "groos profit", 89), rfl, by decide, by norm_num⟩
  rw [h]
  exact ⟨rfl, rfl, rfl⟩

/-! ## Claim theorems: batch resolution duplicates (C3) -/

/-- Reverse index used by the C3 counterexample: one canonical field
reachable through two labels. -/
def wC3rev : List (String × String) := buildReverse [("revenue", ["sales"])]

/-- Counterexample to C3 as stated: "sales" resolves to the
already-consumed field "revenue", a duplicate warning is emitted and the
label is excluded from the mapping, but it is NOT counted in
unmapped_count and NOT listed in unmapped_fields. -/
theorem duplicate_target_counterexample :
    (mapFieldsState wC3rev 85 (fun _ _ => 0) ["revenue", "sales"]).unmapped_count = 0 ∧
    (mapFieldsState wC3rev 85 (fun _ _ => 0) ["revenue", "sales"]).unmapped_fields = [] ∧
    (mapFieldsState wC3rev 85 (fun _ _ => 0) ["revenue", "sales"]).warnings =
      [.duplicate "sales" "revenue"] ∧
    (mapFields wC3rev 85 (fun _ _ => 0) ["revenue", "sales"]).1 = [("revenue", "revenue")] ∧
    (mapFieldsState wC3rev 85 (fun _ _ => 0) ["revenue", "sales"]).mapped_count = 1 := by
  decide

/-- C3, amended.  A later label resolving to an already-consumed canonical
field appends the resolution to the diagnostics results, emits a duplicate
warning and is otherwise ignored: the mapping table, used-field set,
mapped_count, unmapped_count and unmapped_fields are all left unchanged
(the label is counted in neither tally). -/
theorem duplicate_target_skipped
    (reverse : List (String × String)) (θ : ℚ) (simScore : String → String → ℚ)
    (inputs : List String) (label f : String)
    (hlab : (trimChars label.data).isEmpty = false)
    (hres : (resolveField reverse θ simScore label).internal_field = some f)
    (hfne : f.isEmpty = false)
    (hused : f ∈ (mapFieldsState reverse θ simScore inputs).used) :
    mapFieldsState reverse θ simScore (inputs ++ [label]) =
      { mapFieldsState reverse θ simScore inputs with
        results := (mapFieldsState reverse θ simScore inputs).results ++
          [resolveField reverse θ simScore label],
        warnings := (mapFieldsState reverse θ simScore inputs).warnings ++
          [.duplicate label f] } := by
  unfold mapFieldsState
  rw [List.foldl_append]
  simp only [List.foldl_cons, List.foldl_nil]
  rw [show (List.foldl (mapStep reverse θ simScore) {} inputs) =
      mapFieldsState reverse θ simScore inputs from rfl]
  unfold mapStep
  rw [hlab]
  simp only [Bool.false_eq_true, if_false]
  rw [hres]
  simp only [hfne, Bool.false_eq_true, if_false]
  rw [if_pos hused]

/-- Witness for the amended C3 theorem at the counterexample's input. -/
theorem duplicate_target_skipped_witness :
    mapFieldsState wC3rev 85 (fun _ _ => 0) (["revenue"] ++ ["sales"]) =
      { mapFieldsState wC3rev 85 (fun _ _ => 0) ["revenue"] with
        results := (mapFieldsState wC3rev 85 (fun _ _ => 0) ["revenue"]).results ++
          [resolveField wC3rev 85 (fun _ _ => 0) "sales"],
        warnings := (mapFieldsState wC3rev 85 (fun _ _ => 0) ["revenue"]).warnings ++
          [.duplicate "sales" "revenue"] } :=
  duplicate_target_skipped wC3rev 85 (fun _ _ => 0) ["revenue"] "sales" "revenue"
    (by decide) (by decide) (by decide) (by decide)

/-! ## Claim theorems: sign normalisation (C7) -/

/-- Effect of the whole field-name fold on a single dict entry. -/
def negEntry (e : String × ℚ) (fname : String) : String × ℚ :=
  if e.1 = fname ∧ 0 < e.2 then (e.1, -e.2) else e

theorem foldl_negApply_eq_map (names : List String) (data : List (String × ℚ)) :
    names.foldl negApply data = data.map (fun e => names.foldl negEntry e) := by
  induction names generalizing data with
  | nil => simp
  | cons n ns ih =>
    simp only [List.foldl_cons]
    rw [ih]
    simp only [negApply, List.map_map]
    rfl

theorem negEntry_fst (names : List String) (e : String × ℚ) :
    (names.foldl negEntry e).1 = e.1 := by
  induction names generalizing e with
  | nil => rfl
  | cons n ns ih =>
    simp only [List.foldl_cons]
    rw [ih]
    unfold negEntry
    split <;> rfl

theorem foldl_negEntry_nonpos (names : List String) (k : String) (v : ℚ) (h : ¬0 < v) :
    names.foldl negEntry (k, v) = (k, v) := by
  induction names with
  | nil => rfl
  | cons n ns ih =>
    simp only [List.foldl_cons, negEntry, h, and_false, if_false]
    exact ih

theorem foldl_negEntry_notmem (names : List String) (k : String) (v : ℚ) (h : k ∉ names) :
    names.foldl negEntry (k, v) = (k, v) := by
  induction names with
  | nil => rfl
  | cons n ns ih =>
    have hk : k ≠ n := fun he => h (he ▸ List.mem_cons_self n ns)
    simp only [List.foldl_cons, negEntry, hk, false_and, if_false]
    exact ih (fun hm => h (List.mem_cons_of_mem n hm))

theorem foldl_negEntry_pos_mem (names : List String) (k : String) (v : ℚ)
    (hv : 0 < v) (hm : k ∈ names) :
    names.foldl negEntry (k, v) = (k, -v) := by
  induction names with
  | nil => simp at hm
  | cons n ns ih =>
    by_cases hk : k = n
    · subst hk
      simp only [List.foldl_cons, negEntry, true_and, if_pos hv]
      exact foldl_negEntry_nonpos ns k (-v) (by simpa using le_of_lt hv)
    · rcases List.mem_cons.mp hm with h | h
      · exact absurd h hk
      · simp only [List.foldl_cons, negEntry, hk, false_and, if_false]
        exact ih h

theorem foldl_negEntry_idem (names : List String) (e : String × ℚ) :
    names.foldl negEntry (names.foldl negEntry e) = names.foldl negEntry e := by
  rcases e with ⟨k, v⟩
  by_cases hv : 0 < v
  · by_cases hm : k ∈ names
    · rw [foldl_negEntry_pos_mem names k v hv hm]
      exact foldl_negEntry_nonpos names k (-v) (by simpa using le_of_lt hv)
    · rw [foldl_negEntry_notmem names k v hm, foldl_negEntry_notmem names k v hm]
  · rw [foldl_negEntry_nonpos names k v hv, foldl_negEntry_nonpos names k v hv]

/-- C7.  Sign normalisation of a cash-flow record is idempotent for every
mapping configuration, and (with auto sign normalisation on) one
application already leaves each of the six outflow fields non-positive. -/
theorem normalize_signs_idempotent (data : List (String × ℚ)) (cfg : MappingSettings) :
    normalizeSigns (normalizeSigns data "cash_flow" cfg) "cash_flow" cfg =
      normalizeSigns data "cash_flow" cfg ∧
    (cfg.auto_sign_normalization = true →
      ∀ e ∈ normalizeSigns data "cash_flow" cfg, e.1 ∈ NEGATIVE_CF_FIELDS → e.2 ≤ 0) := by
  constructor
  · unfold normalizeSigns
    cases hauto : cfg.auto_sign_normalization with
    | false => simp
    | true =>
      simp only [Bool.not_true, Bool.false_eq_true, if_false, eq_self_iff_true, if_true]
      rw [foldl_negApply_eq_map, foldl_negApply_eq_map]
      induction data with
      | nil => rfl
      | cons e t ih => simp only [List.map_cons, ih, foldl_negEntry_idem]
  · intro hauto e he hneg
    unfold normalizeSigns at he
    rw [hauto] at he
    simp only [Bool.not_true, Bool.false_eq_true, if_false, eq_self_iff_true, if_true] at he
    rw [foldl_negApply_eq_map] at he
    rcases List.mem_map.mp he with ⟨⟨k, v⟩, -, ha⟩
    subst ha
    simp only [negEntry_fst] at hneg
    by_cases hv : 0 < v
    · rw [foldl_negEntry_pos_mem NEGATIVE_CF_FIELDS k v hv hneg]
      simpa using le_of_lt hv
    · rw [foldl_negEntry_nonpos NEGATIVE_CF_FIELDS k v hv]
      exact le_of_not_lt hv

/-- Witness for C7 at a concrete cash-flow record with a positive capex. -/
theorem normalize_signs_idempotent_witness :
    (normalizeSigns (normalizeSigns [("capex", 5), ("net_income", 3)] "cash_flow" {})
        "cash_flow" {} =
      normalizeSigns [("capex", 5), ("net_income", 3)] "cash_flow" {}) ∧
    (∀ e ∈ normalizeSigns [("capex", 5), ("net_income", 3)] "cash_flow" {},
      e.1 ∈ NEGATIVE_CF_FIELDS → e.2 ≤ 0) :=
  ⟨(normalize_signs_idempotent [("capex", 5), ("net_income", 3)] {}).1,
   (normalize_signs_idempotent [("capex", 5), ("net_income", 3)] {}).2 rfl⟩

/-! ## Claim theorems: number parsing (C4) -/

/-- C4.  Evidence of the divergence between the two number parsers: every
claimed sentinel (and whitespace) parses to 0.0 in _parse_number, and the
tabular path is exception-safe; but the stacked parser's _to_float does
not treat the lowercase n/a as a sentinel and raises ValueError on it, as
it does on any unparseable non-sentinel string, with no try/except at its
call site in parse_stacked_sheet. -/
theorem number_parsing_divergence :
    (∀ s ∈ parseNumberSentinels, parseNumber (Cell.str s) = some 0) ∧
    parseNumber (Cell.str "   ") = some 0 ∧
    parseNumber (Cell.str "n/a") = some 0 ∧
    applyCellTabular 0 (Cell.str "oops") = 0 ∧
    toFloat (Cell.str "N/A") = some 0 ∧
    toFloat (Cell.str "n/a") = none ∧
    toFloat (Cell.str "oops") = none := by
  decide

/-! ## Claim theorems: stacked-parser period window (C8) -/

theorem find?_range'_eq_some (P : Nat → Bool) :
    ∀ (n a i : Nat), (List.range' a n).find? P = some i ↔
      (a ≤ i ∧ i < a + n ∧ P i = true ∧ ∀ j, a ≤ j → j < i → P j = false) := by
  intro n
  induction n with
  | zero =>
    intro a i
    simp only [List.range', List.find?]
    constructor
    · intro h
      simp at h
    · rintro ⟨h1, h2, -⟩
      omega
  | succ n ih =>
    intro a i
    rw [List.range'_succ]
    simp only [List.find?]
    cases hPa : P a with
    | true =>
      simp only [Option.some.injEq]
      constructor
      · rintro rfl
        exact ⟨le_rfl, by omega, hPa, fun j h1 h2 => absurd h2 (by omega)⟩
      · rintro ⟨h1, h2, h3, h4⟩
        by_contra hne
        have : a < i := lt_of_le_of_ne h1 hne
        have := h4 a le_rfl this
        rw [hPa] at this
        exact Bool.true_eq_false.mp this
    | false =>
      rw [ih (a + 1) i]
      constructor
      · rintro ⟨h1, h2, h3, h4⟩
        refine ⟨by omega, by omega, h3, fun j hj1 hj2 => ?_⟩
        rcases Nat.eq_or_lt_of_le hj1 with rfl | hj
        · exact hPa
        · exact h4 j hj hj2
      · rintro ⟨h1, h2, h3, h4⟩
        have hne : i ≠ a := fun he => by rw [he, hPa] at h3; exact Bool.false_eq_true.mp h3
        exact ⟨by omega, by omega, h3, fun j hj1 hj2 => h4 j (by omega) hj2⟩

/-- C8, amended.  The period row selected for a section with header row h
and end row e is the first row index i with h ≤ i ≤ min(h+4, e) (and i
inside the sheet) whose row contains at least two period-like cells: the
scan covers at most the five rows h..h+4, not h..h+5 as the claim
states. -/
theorem period_row_window (rows : List (List Cell)) (h e i : Nat) :
    sectionPeriodRow rows h e = some i ↔
      (h ≤ i ∧ i ≤ min (h + 4) e ∧ i < rows.length ∧
       2 ≤ periodCount (rows.getD i []) ∧
       ∀ j, h ≤ j → j < i → periodCount (rows.getD j []) < 2) := by
  unfold sectionPeriodRow detectPeriodRow
  rw [find?_range'_eq_some]
  constructor
  · rintro ⟨h1, h2, h3, h4⟩
    have hb : i < min (min (h + 5) (e + 1)) rows.length := by omega
    refine ⟨h1, by omega, by omega, by simpa using h3, fun j hj1 hj2 => ?_⟩
    have := h4 j hj1 hj2
    simpa using this
  · rintro ⟨h1, h2, h3, h4, h5⟩
    refine ⟨h1, by omega, by simpa using h4, fun j hj1 hj2 => ?_⟩
    simpa using h5 j hj1 hj2

/-- Rows of the C8 counterexample: the only period row sits exactly at
header_idx + 5, inside the claim's window but outside the code's. -/
def wC8rows : List (List Cell) :=
  [[Cell.str "Income Statement"], [], [], [], [],
   [Cell.str "FY2023", Cell.str "FY2024"], [], [], [], [], []]

/-- Counterexample to C8 as stated: with header_idx = 0 and end_idx = 10
the row at index 5 = header_idx + 5 lies in the claim's inclusive window
[0, min(0+5, 10)] and holds two period cells while no earlier row does, so
the claim predicts it is selected; the code selects nothing and skips the
section. -/
theorem period_row_window_counterexample :
    sectionPeriodRow wC8rows 0 10 = none ∧
    5 ≤ min (0 + 5) 10 ∧
    2 ≤ periodCount (wC8rows.getD 5 []) ∧
    ∀ j, j < 5 → periodCount (wC8rows.getD j []) < 2 := by
  decide

/-- Witness for the amended C8 theorem: a qualifying row inside the
five-row window is selected. -/
theorem period_row_window_witness :
    sectionPeriodRow [[Cell.str "Income Statement"], [],
        [Cell.str "FY2023", Cell.str "FY2024"]] 0 10 = some 2 :=
  (period_row_window [[Cell.str "Income Statement"], [],
      [Cell.str "FY2023", Cell.str "FY2024"]] 0 10 2).mpr (by decide)

/-! ## Claim theorems: company-name heuristic (C9) -/

/-- Rows of the C9 counterexample: two of the first five rows contain an
em-dash cell. -/
def wC9rows : List (List Cell) :=
  [[Cell.str "AcmeCo — Model"], [Cell.str "Beta Corp — Model"]]

/-- Counterexample to C9 as stated: the FIRST em-dash cell of the sheet is
"AcmeCo — Model" in row 0, so the claim predicts company_name "AcmeCo";
the code's scan lets the later row 1 override it and produces
"Beta Corp". -/
theorem company_name_counterexample :
    companyNameScan wC9rows = some "Beta Corp" ∧
    companyNameScan wC9rows ≠ some "AcmeCo" ∧
    rowEmDash (wC9rows.getD 0 []) = some "AcmeCo" := by
  decide

theorem getLast?_cons_opt {α : Type} (a : α) (l : List α) :
    (a :: l).getLast? = match l.getLast? with
      | some x => some x
      | none => some a := by
  induction l with
  | nil => rfl
  | cons b t ih =>
    rw [List.getLast?_cons_cons]
    cases hbt : (b :: t).getLast? with
    | none =>
      exact absurd hbt (by simp)
    | some x => rfl

theorem companyNameFold_eq (l : List (List Cell)) :
    ∀ acc : Option String,
      l.foldl (fun acc row => match rowEmDash row with
        | some n => some n
        | none => acc) acc =
      match (l.filterMap rowEmDash).getLast? with
      | some x => some x
      | none => acc := by
  induction l with
  | nil => intro acc; rfl
  | cons r t ih =>
    intro acc
    simp only [List.foldl_cons, List.filterMap_cons]
    cases hr : rowEmDash r with
    | none => exact ih acc
    | some n =>
      rw [ih (some n), getLast?_cons_opt]
      cases (t.filterMap rowEmDash).getLast? <;> rfl

/-- C9, amended.  company_name comes from the LAST of the first five rows
containing an em-dash string cell (within a row, the first such cell),
because the scan's assignment is repeated per row without an outer break;
rows beyond the fifth never contribute. -/
theorem company_name_last_row_wins (rows : List (List Cell)) :
    companyNameScan rows = ((rows.take 5).filterMap rowEmDash).getLast? := by
  unfold companyNameScan
  rw [companyNameFold_eq]
  cases ((rows.take 5).filterMap rowEmDash).getLast? <;> rfl

/-! ## Claim theorems: engine error containment (C5) -/

/-- Results of the non-throwing checks, in registration order. -/
def okResults (checks : List PyCheck) (m : FinancialModel) : List CheckResult :=
  listFlat checks (fun c =>
    match c.run m with
    | .ok rs => rs
    | .error _ => [])

/-- The check_metadata entry each check produces. -/
def metaOf (checks : List PyCheck) (m : FinancialModel) : List CheckMeta :=
  checks.map (fun c =>
    match c.run m with
    | .ok rs => .completed c.id c.name c.category rs.length
    | .error e => .errored c.id c.name c.category e)

theorem engineRun_fold (m : FinancialModel) :
    ∀ (checks : List PyCheck) (acc : List CheckResult × List CheckMeta),
      checks.foldl (fun acc c =>
        match c.run m with
        | .ok rs => (acc.1 ++ rs, acc.2 ++ [.completed c.id c.name c.category rs.length])
        | .error e => (acc.1, acc.2 ++ [.errored c.id c.name c.category e])) acc =
      (acc.1 ++ okResults checks m, acc.2 ++ metaOf checks m) := by
  intro checks
  induction checks with
  | nil => intro acc; simp [okResults, metaOf, listFlat]
  | cons c t ih =>
    intro acc
    simp only [List.foldl_cons]
    cases hc : c.run m with
    | ok rs =>
      rw [ih]
      simp [okResults, metaOf, listFlat, hc]
    | error e =>
      rw [ih]
      simp [okResults, metaOf, listFlat, hc]

theorem engineRun_eq (checks : List PyCheck) (m : FinancialModel) :
    engineRun checks m = (okResults checks m, metaOf checks m) := by
  unfold engineRun
  rw [engineRun_fold]
  rfl

/-- C5.  Per-check error containment: when one registered check raises, the
engine records an errored metadata entry carrying the message for exactly
that check, still runs every remaining check, and the returned report
holds the results of all non-throwing checks, in order. -/
theorem engine_error_containment (pre post : List PyCheck) (c : PyCheck)
    (m : FinancialModel) (e : String) (herr : c.run m = .error e) :
    engineRun (pre ++ c :: post) m =
      (okResults pre m ++ okResults post m,
       metaOf pre m ++ CheckMeta.errored c.id c.name c.category e :: metaOf post m) := by
  rw [engineRun_eq]
  rw [Prod.mk.injEq]
  constructor
  · simp [okResults, listFlat, herr]
  · simp [metaOf, herr]

/-- A check of the C5 witness that completes with one result. -/
def wChkA : PyCheck :=
  ⟨"CHK-A", "A", "structural", fun _ => .ok [⟨"FY2024", "", true, .pass, none, none⟩]⟩

/-- A check of the C5 witness that raises. -/
def wChkB : PyCheck := ⟨"CHK-B", "B", "structural", fun _ => .error "boom"⟩

/-- A check of the C5 witness that completes with no results. -/
def wChkC : PyCheck := ⟨"CHK-C", "C", "structural", fun _ => .ok []⟩

/-- Witness for C5: the middle check raises, its error entry carries the
message, and the first check's result still reaches the report. -/
theorem engine_error_containment_witness :
    engineRun ([wChkA] ++ wChkB :: [wChkC]) {} =
      (okResults [wChkA] {} ++ okResults [wChkC] {},
       metaOf [wChkA] {} ++
         CheckMeta.errored "CHK-B" "B" "structural" "boom" :: metaOf [wChkC] {}) :=
  engine_error_containment [wChkA] [wChkC] wChkB {} "boom" rfl

/-! ## Claim theorems: tolerance monotonicity (C6) -/

/-- Identities (period, item) of the failing results of a run. -/
def failKeys (rs : List CheckResult) : List (String × String) :=
  (rs.filter (fun r => !r.passed)).map (fun r => (r.period, r.item))

theorem isClose_mono {p t t1 a b : ℚ} (ht : t ≤ t1) (hc : isClose p t a b = true) :
    isClose p t1 a b = true := by
  simp only [isClose, decide_eq_true_eq] at *
  exact hc.trans (max_le_max le_rfl ht)

theorem mem_failKeys_append (k : String × String) (l1 l2 : List CheckResult) :
    k ∈ failKeys (l1 ++ l2) ↔ k ∈ failKeys l1 ∨ k ∈ failKeys l2 := by
  simp [failKeys]

theorem mem_failKeys_single (k : String × String) (per item : String) (pass : Bool)
    (sev : Severity) (e a : Option ℚ) :
    k ∈ failKeys [mkResult per item pass sev e a] ↔ (pass = false ∧ k = (per, item)) := by
  cases pass <;> simp [failKeys, mkResult]

theorem failKeys_mkResult_mono {pass1 pass2 : Bool} (hmono : pass1 = true → pass2 = true)
    {per item : String} {sev1 sev2 : Severity} {e1 a1 e2 a2 : Option ℚ} {k : String × String}
    (hk : k ∈ failKeys [mkResult per item pass2 sev2 e2 a2]) :
    k ∈ failKeys [mkResult per item pass1 sev1 e1 a1] := by
  rw [mem_failKeys_single] at hk ⊢
  refine ⟨?_, hk.2⟩
  cases h1 : pass1 with
  | false => rfl
  | true => exact absurd (hmono h1) (by simp [hk.1])

theorem mem_failKeys_flat_mono {α : Type} {l : List α} {f g : α → List CheckResult}
    (h : ∀ a k, k ∈ failKeys (g a) → k ∈ failKeys (f a)) :
    ∀ k, k ∈ failKeys (listFlat l g) → k ∈ failKeys (listFlat l f) := by
  induction l with
  | nil => intro k hk; exact hk
  | cons x t ih =>
    intro k hk
    have hcons : ∀ fn : α → List CheckResult, listFlat (x :: t) fn = fn x ++ listFlat t fn := by
      intro fn; simp [listFlat]
    rw [hcons] at hk ⊢
    rw [mem_failKeys_append] at hk ⊢
    rcases hk with hk | hk
    · exact Or.inl (h x k hk)
    · exact Or.inr (ih k hk)

theorem mono_STR001 (t t1 p : ℚ) (ht : t ≤ t1) (m : FinancialModel) :
    ∀ k, k ∈ failKeys (runSTR001 t1 p m) → k ∈ failKeys (runSTR001 t p m) := by
  unfold runSTR001
  apply mem_failKeys_flat_mono
  intro per k hk
  rcases hbs : List.lookup per m.balance_sheets with _ | bs <;>
    simp only [hbs] at hk ⊢
  · exact hk
  · exact failKeys_mkResult_mono (isClose_mono ht) hk

theorem mono_STR002 (t t1 p : ℚ) (ht : t ≤ t1) (m : FinancialModel) :
    ∀ k, k ∈ failKeys (runSTR002 t1 p m) → k ∈ failKeys (runSTR002 t p m) := by
  unfold runSTR002
  apply mem_failKeys_flat_mono
  intro per k hk
  rcases hbs : List.lookup per m.balance_sheets with _ | bs <;>
    simp only [hbs] at hk ⊢
  · exact hk
  · exact failKeys_mkResult_mono (isClose_mono ht) hk

theorem mono_STR003 (t t1 p : ℚ) (ht : t ≤ t1) (m : FinancialModel) :
    ∀ k, k ∈ failKeys (runSTR003 t1 p m) → k ∈ failKeys (runSTR003 t p m) := by
  unfold runSTR003
  apply mem_failKeys_flat_mono
  intro per k hk
  rcases hbs : List.lookup per m.balance_sheets with _ | bs <;>
    simp only [hbs] at hk ⊢
  · exact hk
  · exact failKeys_mkResult_mono (isClose_mono ht) hk

theorem mono_STR004 (t t1 p : ℚ) (ht : t ≤ t1) (m : FinancialModel) :
    ∀ k, k ∈ failKeys (runSTR004 t1 p m) → k ∈ failKeys (runSTR004 t p m) := by
  unfold runSTR004
  apply mem_failKeys_flat_mono
  intro per k hk
  rcases hbs : List.lookup per m.balance_sheets with _ | bs <;>
    simp only [hbs] at hk ⊢
  · exact hk
  · exact failKeys_mkResult_mono (isClose_mono ht) hk

theorem mono_STR010 (t t1 p : ℚ) (ht : t ≤ t1) (m : FinancialModel) :
    ∀ k, k ∈ failKeys (runSTR010 t1 p m) → k ∈ failKeys (runSTR010 t p m) := by
  unfold runSTR010
  apply mem_failKeys_flat_mono
  intro per k hk
  rcases hist : List.lookup per m.income_statements with _ | ist <;>
    simp only [hist] at hk ⊢
  · exact hk
  · exact failKeys_mkResult_mono (isClose_mono ht) hk

theorem mono_STR011 (t t1 p : ℚ) (ht : t ≤ t1) (m : FinancialModel) :
    ∀ k, k ∈ failKeys (runSTR011 t1 p m) → k ∈ failKeys (runSTR011 t p m) := by
  unfold runSTR011
  apply mem_failKeys_flat_mono
  intro per k hk
  rcases hist : List.lookup per m.income_statements with _ | ist <;>
    simp only [hist] at hk ⊢
  · exact hk
  · exact failKeys_mkResult_mono (isClose_mono ht) hk

theorem mono_STR012 (t t1 p : ℚ) (ht : t ≤ t1) (m : FinancialModel) :
    ∀ k, k ∈ failKeys (runSTR012 t1 p m) → k ∈ failKeys (runSTR012 t p m) := by
  unfold runSTR012
  apply mem_failKeys_flat_mono
  intro per k hk
  rcases hist : List.lookup per m.income_statements with _ | ist <;>
    simp only [hist] at hk ⊢
  · exact hk
  · exact failKeys_mkResult_mono (isClose_mono ht) hk

theorem mono_STR013 (t t1 p : ℚ) (ht : t ≤ t1) (m : FinancialModel) :
    ∀ k, k ∈ failKeys (runSTR013 t1 p m) → k ∈ failKeys (runSTR013 t p m) := by
  unfold runSTR013
  apply mem_failKeys_flat_mono
  intro per k hk
  rcases hist : List.lookup per m.income_statements with _ | ist <;>
    simp only [hist] at hk ⊢
  · exact hk
  · exact failKeys_mkResult_mono (isClose_mono ht) hk

theorem mono_STR020 (t t1 p : ℚ) (ht : t ≤ t1) (m : FinancialModel) :
    ∀ k, k ∈ failKeys (runSTR020 t1 p m) → k ∈ failKeys (runSTR020 t p m) := by
  unfold runSTR020
  apply mem_failKeys_flat_mono
  intro per k hk
  rcases hcf : List.lookup per m.cash_flows with _ | cf <;>
    simp only [hcf] at hk ⊢
  · exact hk
  · exact failKeys_mkResult_mono (isClose_mono ht) hk

theorem mono_STR021 (t t1 p : ℚ) (ht : t ≤ t1) (m : FinancialModel) :
    ∀ k, k ∈ failKeys (runSTR021 t1 p m) → k ∈ failKeys (runSTR021 t p m) := by
  unfold runSTR021
  apply mem_failKeys_flat_mono
  intro per k hk
  rcases hcf : List.lookup per m.cash_flows with _ | cf <;>
    simp only [hcf] at hk ⊢
  · exact hk
  · exact failKeys_mkResult_mono (isClose_mono ht) hk

theorem mono_STR022 (t t1 p : ℚ) (ht : t ≤ t1) (m : FinancialModel) :
    ∀ k, k ∈ failKeys (runSTR022 t1 p m) → k ∈ failKeys (runSTR022 t p m) := by
  unfold runSTR022
  apply mem_failKeys_flat_mono
  intro per k hk
  rcases hcf : List.lookup per m.cash_flows with _ | cf <;>
    simp only [hcf] at hk ⊢
  · exact hk
  · exact failKeys_mkResult_mono (isClose_mono ht) hk

theorem mono_STR030 (t t1 p : ℚ) (ht : t ≤ t1) (m : FinancialModel) :
    ∀ k, k ∈ failKeys (runSTR030 t1 p m) → k ∈ failKeys (runSTR030 t p m) := by
  unfold runSTR030
  apply mem_failKeys_flat_mono
  intro per k hk
  rcases hbs : List.lookup per m.balance_sheets with _ | bs <;>
    simp only [hbs] at hk ⊢
  · exact hk
  · by_cases hg : bs.ppe_gross = 0 ∧ bs.accumulated_depreciation = 0 ∧ bs.ppe_net = 0
    · simp only [if_pos hg] at hk ⊢
      exact hk
    · simp only [if_neg hg] at hk ⊢
      exact failKeys_mkResult_mono (isClose_mono ht) hk

theorem mono_STR031 (t t1 p : ℚ) (ht : t ≤ t1) (m : FinancialModel) :
    ∀ k, k ∈ failKeys (runSTR031 t1 p m) → k ∈ failKeys (runSTR031 t p m) := by
  unfold runSTR031
  apply mem_failKeys_flat_mono
  intro per k hk
  rcases hbs : List.lookup per m.balance_sheets with _ | bs <;>
    simp only [hbs] at hk ⊢
  · exact hk
  · exact failKeys_mkResult_mono (isClose_mono ht) hk

theorem mono_STR032 (t t1 p : ℚ) (ht : t ≤ t1) (m : FinancialModel) :
    ∀ k, k ∈ failKeys (runSTR032 t1 p m) → k ∈ failKeys (runSTR032 t p m) := by
  unfold runSTR032
  apply mem_failKeys_flat_mono
  intro per k hk
  rcases hbs : List.lookup per m.balance_sheets with _ | bs <;>
    simp only [hbs] at hk ⊢
  · exact hk
  · exact failKeys_mkResult_mono (isClose_mono ht) hk

theorem mono_STR033 (t t1 p : ℚ) (ht : t ≤ t1) (m : FinancialModel) :
    ∀ k, k ∈ failKeys (runSTR033 t1 p m) → k ∈ failKeys (runSTR033 t p m) := by
  unfold runSTR033
  apply mem_failKeys_flat_mono
  intro per k hk
  rcases hbs : List.lookup per m.balance_sheets with _ | bs <;>
    simp only [hbs] at hk ⊢
  · exact hk
  · exact failKeys_mkResult_mono (isClose_mono ht) hk

theorem mono_XST001 (t t1 p : ℚ) (ht : t ≤ t1) (m : FinancialModel) :
    ∀ k, k ∈ failKeys (runXST001 t1 p m) → k ∈ failKeys (runXST001 t p m) := by
  unfold runXST001
  apply mem_failKeys_flat_mono
  intro per k hk
  rcases h1 : List.lookup per m.income_statements with _ | ist <;>
    rcases h2 : List.lookup per m.cash_flows with _ | cf <;>
      simp only [h1, h2] at hk ⊢
  · exact hk
  · exact hk
  · exact hk
  · exact failKeys_mkResult_mono (isClose_mono ht) hk

theorem mono_XST002 (t t1 p : ℚ) (ht : t ≤ t1) (m : FinancialModel) :
    ∀ k, k ∈ failKeys (runXST002 t1 p m) → k ∈ failKeys (runXST002 t p m) := by
  unfold runXST002
  apply mem_failKeys_flat_mono
  intro pr k hk
  rcases h1 : List.lookup pr.1 m.balance_sheets with _ | bsPrev <;>
    rcases h2 : List.lookup pr.2 m.balance_sheets with _ | bsCurr <;>
      rcases h3 : List.lookup pr.2 m.income_statements with _ | ist <;>
        simp only [h1, h2, h3] at hk ⊢ <;>
          first
          | exact hk
          | exact failKeys_mkResult_mono (isClose_mono (max_le_max ht le_rfl)) hk

theorem mono_XST003 (t t1 p : ℚ) (ht : t ≤ t1) (m : FinancialModel) :
    ∀ k, k ∈ failKeys (runXST003 t1 p m) → k ∈ failKeys (runXST003 t p m) := by
  unfold runXST003
  apply mem_failKeys_flat_mono
  intro per k hk
  rcases h1 : List.lookup per m.cash_flows with _ | cf <;>
    rcases h2 : List.lookup per m.balance_sheets with _ | bs <;>
      simp only [h1, h2] at hk ⊢ <;>
        first
        | exact hk
        | exact failKeys_mkResult_mono (isClose_mono ht) hk

theorem mono_XST004 (t t1 p : ℚ) (ht : t ≤ t1) (m : FinancialModel) :
    ∀ k, k ∈ failKeys (runXST004 t1 p m) → k ∈ failKeys (runXST004 t p m) := by
  unfold runXST004
  apply mem_failKeys_flat_mono
  intro pr k hk
  rcases h1 : List.lookup pr.1 m.cash_flows with _ | cfPrev <;>
    rcases h2 : List.lookup pr.2 m.cash_flows with _ | cfCurr <;>
      simp only [h1, h2] at hk ⊢ <;>
        first
        | exact hk
        | exact failKeys_mkResult_mono (isClose_mono ht) hk

theorem mono_XST005 (t t1 p : ℚ) (ht : t ≤ t1) (m : FinancialModel) :
    ∀ k, k ∈ failKeys (runXST005 t1 p m) → k ∈ failKeys (runXST005 t p m) := by
  unfold runXST005
  apply mem_failKeys_flat_mono
  intro per k hk
  rcases h1 : List.lookup per m.income_statements with _ | ist <;>
    rcases h2 : List.lookup per m.cash_flows with _ | cf <;>
      simp only [h1, h2] at hk ⊢
  · exact hk
  · exact hk
  · exact hk
  · by_cases hg : ist.depreciation + ist.amortization = 0 ∧ cf.depreciation_amortization = 0
    · simp only [if_pos hg] at hk ⊢
      exact hk
    · simp only [if_neg hg] at hk ⊢
      exact failKeys_mkResult_mono (isClose_mono ht) hk

theorem mono_XST006 (t t1 p : ℚ) (ht : t ≤ t1) (m : FinancialModel) :
    ∀ k, k ∈ failKeys (runXST006 t1 p m) → k ∈ failKeys (runXST006 t p m) := by
  unfold runXST006
  apply mem_failKeys_flat_mono
  intro pr k hk
  rcases h1 : List.lookup pr.1 m.balance_sheets with _ | bsPrev <;>
    rcases h2 : List.lookup pr.2 m.balance_sheets with _ | bsCurr <;>
      rcases h3 : List.lookup pr.2 m.cash_flows with _ | cf <;>
        simp only [h1, h2, h3] at hk ⊢ <;>
          try exact hk
  by_cases hg : bsPrev.ppe_net = 0 ∧ bsCurr.ppe_net = 0
  · simp only [if_pos hg] at hk ⊢
    exact hk
  · simp only [if_neg hg] at hk ⊢
    exact failKeys_mkResult_mono (isClose_mono (max_le_max ht le_rfl)) hk

theorem mono_XST007 (t t1 p : ℚ) (ht : t ≤ t1) (m : FinancialModel) :
    ∀ k, k ∈ failKeys (runXST007 t1 p m) → k ∈ failKeys (runXST007 t p m) := by
  unfold runXST007
  apply mem_failKeys_flat_mono
  intro pr k hk
  rcases h1 : List.lookup pr.1 m.balance_sheets with _ | bsPrev <;>
    rcases h2 : List.lookup pr.2 m.balance_sheets with _ | bsCurr <;>
      rcases h3 : List.lookup pr.2 m.cash_flows with _ | cf <;>
        simp only [h1, h2, h3] at hk ⊢ <;>
          try exact hk
  by_cases hg : totalDebt bsPrev = 0 ∧ totalDebt bsCurr = 0
  · simp only [if_pos hg] at hk ⊢
    exact hk
  · simp only [if_neg hg] at hk ⊢
    exact failKeys_mkResult_mono (isClose_mono (max_le_max ht le_rfl)) hk

theorem mono_XST008 (t t1 p : ℚ) (ht : t ≤ t1) (m : FinancialModel) :
    ∀ k, k ∈ failKeys (runXST008 t1 p m) → k ∈ failKeys (runXST008 t p m) :=
  fun k hk => hk

theorem mono_XST009 (t t1 p : ℚ) (ht : t ≤ t1) (m : FinancialModel) :
    ∀ k, k ∈ failKeys (runXST009 t1 p m) → k ∈ failKeys (runXST009 t p m) := by
  unfold runXST009
  apply mem_failKeys_flat_mono
  intro pr k hk
  rcases h1 : List.lookup pr.1 m.balance_sheets with _ | bsPrev <;>
    rcases h2 : List.lookup pr.2 m.balance_sheets with _ | bsCurr <;>
      rcases h3 : List.lookup pr.2 m.cash_flows with _ | cf <;>
        simp only [h1, h2, h3] at hk ⊢ <;>
          try exact hk
  revert hk
  generalize ([("ΔAR", -(bsCurr.accounts_receivable - bsPrev.accounts_receivable),
      cf.change_in_receivables),
    ("ΔInv", -(bsCurr.inventory - bsPrev.inventory), cf.change_in_inventory),
    ("ΔAP", bsCurr.accounts_payable - bsPrev.accounts_payable,
      cf.change_in_payables)] : List (String × ℚ × ℚ)) = items
  induction items with
  | nil => exact fun hk => hk
  | cons it rest ih =>
    intro hk
    simp only [List.filterMap_cons] at hk ⊢
    by_cases hg : it.2.1 = 0 ∧ it.2.2 = 0
    · simp only [if_pos hg] at hk ⊢
      exact ih hk
    · simp only [if_neg hg] at hk ⊢
      rw [show ∀ (r : CheckResult) (l : List CheckResult), r :: l = [r] ++ l from
        fun r l => rfl, show ∀ (r : CheckResult) (l : List CheckResult), r :: l = [r] ++ l from
        fun r l => rfl] at hk ⊢
      rw [mem_failKeys_append] at hk ⊢
      rcases hk with hk | hk
      · exact Or.inl (failKeys_mkResult_mono
          (isClose_mono (max_le_max ht le_rfl)) hk)
      · exact Or.inr (ih hk)

theorem mono_XST010 (t t1 p : ℚ) (ht : t ≤ t1) (m : FinancialModel) :
    ∀ k, k ∈ failKeys (runXST010 t1 p m) → k ∈ failKeys (runXST010 t p m) :=
  fun k hk => hk

theorem mono_RSN001 (t t1 p : ℚ) (ht : t ≤ t1) (m : FinancialModel) :
    ∀ k, k ∈ failKeys (runRSN001 t1 p m) → k ∈ failKeys (runRSN001 t p m) :=
  fun k hk => hk

theorem mono_RSN002 (t t1 p : ℚ) (ht : t ≤ t1) (m : FinancialModel) :
    ∀ k, k ∈ failKeys (runRSN002 t1 p m) → k ∈ failKeys (runRSN002 t p m) :=
  fun k hk => hk

theorem mono_RSN003 (t t1 p : ℚ) (ht : t ≤ t1) (m : FinancialModel) :
    ∀ k, k ∈ failKeys (runRSN003 t1 p m) → k ∈ failKeys (runRSN003 t p m) :=
  fun k hk => hk

theorem mono_RSN004 (t t1 p : ℚ) (ht : t ≤ t1) (m : FinancialModel) :
    ∀ k, k ∈ failKeys (runRSN004 t1 p m) → k ∈ failKeys (runRSN004 t p m) :=
  fun k hk => hk

theorem mono_RSN005items (t t1 : ℚ) (ht : t ≤ t1) (per : String) :
    ∀ (items : List (String × ℚ)) (k : String × String),
      k ∈ failKeys (items.filterMap (fun lv =>
        if lv.2 < -t1 then some (mkResult per lv.1 false .error (some 0) (some lv.2))
        else none)) →
      k ∈ failKeys (items.filterMap (fun lv =>
        if lv.2 < -t then some (mkResult per lv.1 false .error (some 0) (some lv.2))
        else none)) := by
  intro items
  induction items with
  | nil => exact fun k hk => hk
  | cons lv rest ih =>
    intro k hk
    simp only [List.filterMap_cons] at hk ⊢
    by_cases h1 : lv.2 < -t1
    · have h0 : lv.2 < -t := lt_of_lt_of_le h1 (by simpa using ht)
      simp only [if_pos h1] at hk
      simp only [if_pos h0]
      rw [show ∀ (r : CheckResult) (l : List CheckResult), r :: l = [r] ++ l from
        fun r l => rfl] at hk ⊢
      rw [mem_failKeys_append] at hk ⊢
      rcases hk with hk | hk
      · exact Or.inl hk
      · exact Or.inr (ih k hk)
    · simp only [if_neg h1] at hk
      have hrest := ih k hk
      by_cases h0 : lv.2 < -t
      · simp only [if_pos h0]
        rw [show ∀ (r : CheckResult) (l : List CheckResult), r :: l = [r] ++ l from
          fun r l => rfl]
        rw [mem_failKeys_append]
        exact Or.inr hrest
      · simp only [if_neg h0]
        exact hrest

theorem mono_RSN005 (t t1 p : ℚ) (ht : t ≤ t1) (m : FinancialModel) :
    ∀ k, k ∈ failKeys (runRSN005 t1 p m) → k ∈ failKeys (runRSN005 t p m) := by
  unfold runRSN005
  apply mem_failKeys_flat_mono
  intro per k hk
  exact mono_RSN005items t t1 ht per _ k hk

theorem mono_RSN006 (t t1 p : ℚ) (ht : t ≤ t1) (m : FinancialModel) :
    ∀ k, k ∈ failKeys (runRSN006 t1 p m) → k ∈ failKeys (runRSN006 t p m) :=
  fun k hk => hk

theorem mono_RSN007go (t t1 p : ℚ) (ht : t ≤ t1) (m : FinancialModel) :
    ∀ (l : List String) (streak : Nat) (k : String × String),
      k ∈ failKeys (runRSN007go t1 p m l streak) →
      k ∈ failKeys (runRSN007go t p m l streak) := by
  intro l
  induction l with
  | nil => exact fun streak k hk => hk
  | cons per rest ih =>
    intro streak k hk
    unfold runRSN007go at hk ⊢
    rcases hcf : List.lookup per m.cash_flows with _ | cf <;>
      simp only [hcf] at hk ⊢
    · exact ih streak k hk
    · rw [mem_failKeys_append, mem_failKeys_append] at hk ⊢
      rcases hk with (hk | hk) | hk
      · refine Or.inl (Or.inl ?_)
        rcases hfcf : cf.free_cash_flow with _ | fcf <;> simp only [hfcf] at hk ⊢
        · exact hk
        · exact failKeys_mkResult_mono (isClose_mono ht) hk
      · exact Or.inl (Or.inr hk)
      · exact Or.inr (ih _ k hk)

theorem mono_RSN007 (t t1 p : ℚ) (ht : t ≤ t1) (m : FinancialModel) :
    ∀ k, k ∈ failKeys (runRSN007 t1 p m) → k ∈ failKeys (runRSN007 t p m) := by
  unfold runRSN007
  exact mono_RSN007go t t1 p ht m (getOrderedPeriods m) 0

/-- C6.  Tolerance monotonicity across the whole catalog: for every check
in ALL_CHECKS and every model, raising the engine's absolute tolerance
(same tolerance_pct) never turns a passing result into a failing one —
every (period, item) failing at the larger tolerance already fails at the
smaller one.  The per-check widened tolerances (XST-002/006/007/009) and
the RSN-005 negative-balance threshold are covered. -/
theorem tolerance_monotonicity (c : Check) (t t1 p : ℚ) (m : FinancialModel)
    (k : String × String) (hc : c ∈ ALL_CHECKS) (ht : t ≤ t1)
    (hk : k ∈ failKeys (c.run t1 p m)) :
    k ∈ failKeys (c.run t p m) := by
  fin_cases hc
  · exact mono_STR001 t t1 p ht m k hk
  · exact mono_STR002 t t1 p ht m k hk
  · exact mono_STR003 t t1 p ht m k hk
  · exact mono_STR004 t t1 p ht m k hk
  · exact mono_STR010 t t1 p ht m k hk
  · exact mono_STR011 t t1 p ht m k hk
  · exact mono_STR012 t t1 p ht m k hk
  · exact mono_STR013 t t1 p ht m k hk
  · exact mono_STR020 t t1 p ht m k hk
  · exact mono_STR021 t t1 p ht m k hk
  · exact mono_STR022 t t1 p ht m k hk
  · exact mono_STR030 t t1 p ht m k hk
  · exact mono_STR031 t t1 p ht m k hk
  · exact mono_STR032 t t1 p ht m k hk
  · exact mono_STR033 t t1 p ht m k hk
  · exact mono_XST001 t t1 p ht m k hk
  · exact mono_XST002 t t1 p ht m k hk
  · exact mono_XST003 t t1 p ht m k hk
  · exact mono_XST004 t t1 p ht m k hk
  · exact mono_XST005 t t1 p ht m k hk
  · exact mono_XST006 t t1 p ht m k hk
  · exact mono_XST007 t t1 p ht m k hk
  · exact mono_XST008 t t1 p ht m k hk
  · exact mono_XST009 t t1 p ht m k hk
  · exact mono_XST010 t t1 p ht m k hk
  · exact mono_RSN001 t t1 p ht m k hk
  · exact mono_RSN002 t t1 p ht m k hk
  · exact mono_RSN003 t t1 p ht m k hk
  · exact mono_RSN004 t t1 p ht m k hk
  · exact mono_RSN005 t t1 p ht m k hk
  · exact mono_RSN006 t t1 p ht m k hk
  · exact mono_RSN007 t t1 p ht m k hk

/-- Model of the C6 witness: one period with an unbalanced balance
sheet. -/
def wC6model : FinancialModel :=
  { periods := ["FY2024"],
    balance_sheets := [("FY2024", { period := "FY2024", total_liabilities_and_equity := 100 })] }

/-- Witness for C6: STR-001 fails at absolute tolerance 2 on the witness
model, and the theorem carries the failure down to tolerance 1. -/
theorem tolerance_monotonicity_witness :
    ("FY2024", "") ∈ failKeys ((⟨"STR-001", runSTR001⟩ : Check).run 1 0 wC6model) := by
  have hfail : ("FY2024", "") ∈ failKeys ((⟨"STR-001", runSTR001⟩ : Check).run 2 0 wC6model) := by
    have hclose : isClose 0 2 (0 : ℚ) 100 = false := by
      simp only [isClose, decide_eq_false_iff_not, not_le]
      norm_num
    simp [runSTR001, wC6model, getOrderedPeriods, listFlat, List.lookup, failKeys,
      mkResult, hclose]
  exact tolerance_monotonicity ⟨"STR-001", runSTR001⟩ 1 2 0 wC6model ("FY2024", "")
    (List.mem_cons_self _ _) (by norm_num) hfail

end FsVerify
